import Mathlib

/-!
Verification development for the tauri-youtube-mp3 core
(`src-tauri/src/deps.rs`, `src-tauri/src/download.rs`,
`src-tauri/src/commands.rs`).

The Rust code is shallowly embedded: pure string manipulation is translated
character-for-character (Rust byte indices coincide with our character
indices on the ASCII data the code manipulates); `f64` progress values are
modelled as exact rationals (`ℚ`); filesystem and child-process effects are
modelled by explicit environments listing what each probe, spawn and wait
returns, and the functions thread that environment exactly as the source
threads its `Result`s.
-/

deriving instance DecidableEq for Except

namespace YtMp3

/-! ## Character classes used by the Rust code -/

/-- Rust `char::is_control`: the Unicode `Cc` category,
`U+0000..U+001F` and `U+007F..U+009F`. -/
def isRustControl (c : Char) : Bool :=
  c.toNat ≤ 0x1F || (0x7F ≤ c.toNat && c.toNat ≤ 0x9F)

/-- Rust `char::is_whitespace`: the Unicode `White_Space` property. -/
def isRustWhitespace (c : Char) : Bool :=
  (0x9 ≤ c.toNat && c.toNat ≤ 0xD) || c.toNat = 0x20 || c.toNat = 0x85 ||
  c.toNat = 0xA0 || c.toNat = 0x1680 ||
  (0x2000 ≤ c.toNat && c.toNat ≤ 0x200A) ||
  c.toNat = 0x2028 || c.toNat = 0x2029 || c.toNat = 0x202F ||
  c.toNat = 0x205F || c.toNat = 0x3000

/-- Rust `char::is_ascii_digit`. -/
def isAsciiDigit (c : Char) : Bool :=
  '0' ≤ c && c ≤ '9'

/-! ## List/string helpers mirroring Rust `str` operations -/

/-- Remove the longest suffix of elements satisfying `p`
(Rust `str::trim_end_matches` with a char pattern, and the tail half of
`str::trim`). -/
def dropTrailing (p : Char → Bool) (l : List Char) : List Char :=
  (l.reverse.dropWhile p).reverse

/-- Rust `str::trim`: strip leading and trailing Unicode whitespace. -/
def rustTrim (l : List Char) : List Char :=
  dropTrailing isRustWhitespace (l.dropWhile isRustWhitespace)

/-- Does `pat` occur at the head of `l`? -/
def isPrefListOf : List Char → List Char → Bool
  | [], _ => true
  | _ :: _, [] => false
  | p :: ps, c :: cs => p == c && isPrefListOf ps cs

/-- Does `pat` occur anywhere in `l` (Rust `str::contains` with a `&str`
pattern)? -/
def hasSubList (pat : List Char) : List Char → Bool
  | [] => pat.isEmpty
  | l@(_ :: cs) => isPrefListOf pat l || hasSubList pat cs

/-- Character index of the first occurrence of `pat` in `l`
(Rust `str::find`; byte indices agree with character indices on ASCII). -/
def findSubIdx (pat : List Char) : List Char → Option Nat
  | [] => if pat.isEmpty then some 0 else none
  | l@(_ :: cs) =>
    if isPrefListOf pat l then some 0 else (findSubIdx pat cs).map (· + 1)

/-- Rust `str::contains` on strings. -/
def strContains (s pat : String) : Bool :=
  hasSubList pat.toList s.toList

/-- Rust `str::find(char)` on strings, as a character index. -/
def findCharIdx (c : Char) (l : List Char) : Option Nat :=
  findSubIdx [c] l

/-- ASCII lowercasing of one character.  The source uses Rust's full
Unicode `str::to_lowercase`; the two agree on ASCII, which is all the URL
classifiers and line classifier compare against. -/
def rustLowerChar (c : Char) : Char :=
  if 'A' ≤ c ∧ c ≤ 'Z' then Char.ofNat (c.toNat + 32) else c

/-- `str::to_lowercase`, restricted to its ASCII behaviour. -/
def rustToLowercase (s : String) : String :=
  String.mk (s.toList.map rustLowerChar)

/-- Rust `str::starts_with`. -/
def strStartsWith (s pat : String) : Bool :=
  isPrefListOf pat.toList s.toList

/-! ## `sanitize_filename` (download.rs:1334-1350) -/

/-- The character replacement in `sanitize_filename`'s `map` closure. -/
def sanitizeChar (c : Char) : Char :=
  match c with
  | '<' | '>' | ':' | '"' | '/' | '\\' | '|' | '?' | '*' | '\x00' => '_'
  | c => if isRustControl c then '_' else c

/-- `sanitize_filename` (download.rs:1334-1350): map each invalid or
control character to `'_'`, then `trim`, then `trim_end_matches('.')`,
then `trim_end_matches(' ')`. -/
def sanitizeFilename (s : String) : String :=
  String.mk
    (dropTrailing (· == ' ')
      (dropTrailing (· == '.')
        (rustTrim (s.toList.map sanitizeChar))))

/-! ## URL classification (download.rs:1306-1330) -/

/-- `is_youtube_url` (download.rs:1306-1320). -/
def isYoutubeUrl (url : String) : Bool :=
  let urlLower := rustToLowercase url
  strContains urlLower "youtube.com/watch" ||
  strContains urlLower "youtu.be/" ||
  strContains urlLower "youtube.com/embed/" ||
  strContains urlLower "youtube.com/v/" ||
  strContains urlLower "youtube.com/shorts/" ||
  strContains urlLower "m.youtube.com/watch" ||
  strContains urlLower "www.youtube.com/watch" ||
  strStartsWith urlLower "https://youtube.com/" ||
  strStartsWith urlLower "http://youtube.com/" ||
  strStartsWith urlLower "https://youtu.be/" ||
  strStartsWith urlLower "http://youtu.be/" ||
  strContains urlLower "youtube.com/playlist"

/-- `is_playlist_url` (download.rs:1323-1330). -/
def isPlaylistUrl (url : String) : Bool :=
  let urlLower := rustToLowercase url
  strContains urlLower "list=" && (
    strContains urlLower "youtube.com/watch" ||
    strContains urlLower "youtube.com/playlist")

/-- The two URL checks at the head of `download_playlist_with_progress`
(download.rs:964-971): `some msg` is the early `Err(msg)` return, `none`
means validation passed. -/
def playlistUrlValidation (url : String) : Option String :=
  if !isYoutubeUrl url then
    some "Invalid YouTube URL. Please provide a valid YouTube playlist URL."
  else if !isPlaylistUrl url then
    some "URL does not appear to be a playlist URL."
  else
    none

/-! ## Binary provisioning: `extract_binary` (deps.rs:112-180)

The filesystem and the version-probe child process are modelled by an
environment recording what each step observes; `extract_binary` threads it
exactly as the source threads its `Result`s and early returns. -/

/-- What `extract_binary`'s environment observes, in source order:
the resolved cache path, the cached file's existence and size
(`fs::metadata(..).ok().map(|m| m.len()).unwrap_or(0)`), the version
probe's outcome (`result.is_ok() && ...status.success()`), resource
resolution, the bundled file's existence, metadata and size, and whether
`copy_binary_atomic` succeeds. -/
structure DepsEnv where
  extractedPath : Option String
  cacheExists : Bool
  cacheSize : Nat
  probeOk : Bool
  resourceResolved : Option String
  bundledExists : Bool
  bundledMetaOk : Bool
  bundledSize : Nat
  copyOk : Bool
deriving Repr, DecidableEq

/-- Outcome of one `extract_binary` call: the returned `Result`, whether
the fast path (return of the existing cache copy, deps.rs:140) was taken,
and whether the cache entry was deleted (deps.rs:128/144). -/
structure ExtractOutcome where
  result : Except String String
  servedFromCache : Bool
  removedCache : Bool
deriving Repr, DecidableEq

/-- The extraction tail of `extract_binary` (deps.rs:148-179): resolve the
bundled resource, reject a missing or zero-sized resource, then copy it
atomically onto the cache path. -/
def extractFresh (e : DepsEnv) (path : String) (removed : Bool) : ExtractOutcome :=
  match e.resourceResolved with
  | none =>
    ⟨.error "Resource is not bundled. Make sure binaries are placed in src-tauri/binaries/ and tauri.conf.json includes binaries in bundle.resources",
      false, removed⟩
  | some bundledPath =>
    if !e.bundledExists then
      ⟨.error ("Bundled binary does not exist at resolved path: " ++ bundledPath),
        false, removed⟩
    else if !e.bundledMetaOk then
      ⟨.error "Failed to get bundled binary metadata", false, removed⟩
    else if e.bundledSize = 0 then
      ⟨.error ("Bundled binary at " ++ bundledPath ++ " is empty (0 bytes). This is likely a placeholder file."),
        false, removed⟩
    else if e.copyOk then
      ⟨.ok path, false, removed⟩
    else
      ⟨.error "Failed to extract binary", false, removed⟩

/-- `extract_binary` (deps.rs:112-180).  The process-wide
`EXTRACTION_LOCK` serialises calls; one call's body is sequential and is
embedded directly.  If the cache file exists: a zero-sized copy is deleted
and extraction re-runs; otherwise the version probe decides between the
fast path and delete-and-re-extract. -/
def extractBinary (e : DepsEnv) : ExtractOutcome :=
  match e.extractedPath with
  | none => ⟨.error "Failed to get app data directory", false, false⟩
  | some path =>
    if e.cacheExists then
      if e.cacheSize = 0 then
        extractFresh e path true
      else if e.probeOk then
        ⟨.ok path, true, false⟩
      else
        extractFresh e path true
    else
      extractFresh e path false

/-! ## Filesystem snapshot used by the download orchestrator models -/

/-- One on-disk file: its full path and its `metadata().len()`. -/
structure FileMeta where
  path : String
  size : Nat
deriving Repr, DecidableEq

/-- Does `p` exist in the directory snapshot (the model of
`Path::exists`)? -/
def pathExists (disk : List FileMeta) (p : String) : Bool :=
  disk.any (fun f => f.path == p)

/-- `std::fs::metadata(p).ok().map(|m| m.len())` over the snapshot. -/
def diskSize (disk : List FileMeta) (p : String) : Option Nat :=
  (disk.find? (fun f => f.path == p)).map (·.size)

/-- `Path::new(folder).join(name)`, for the relative file names the code
joins (the only shape it produces). -/
def pathJoin (folder name : String) : String :=
  folder ++ "/" ++ name

/-- The extension of a path, per Rust `Path::extension` for the
`dir/name.ext` shapes the code scans: the part of the file name after its
last `'.'`, provided the dot is not the name's first character. -/
def pathExtension (p : String) : Option String :=
  let fname := match findSubIdx ['/'] p.toList.reverse with
    | some i => (p.toList.reverse.take i).reverse
    | none => p.toList
  match findSubIdx ['.'] fname.reverse with
  | some i =>
    if i + 1 = fname.length then none
    else some (String.mk ((fname.reverse.take i).reverse))
  | none => none

/-- `Path::file_stem` for the same path shapes: the file name with its
last extension removed. -/
def pathFileStem (p : String) : Option String :=
  let fname := match findSubIdx ['/'] p.toList.reverse with
    | some i => (p.toList.reverse.take i).reverse
    | none => p.toList
  match fname with
  | [] => none
  | _ =>
    match findSubIdx ['.'] fname.reverse with
    | some i =>
      if i + 1 = fname.length then some (String.mk fname)
      else some (String.mk (fname.take (fname.length - i - 1)))
    | none => some (String.mk fname)

/-! ## Single-item flow: `download_youtube` (download.rs:435-556) -/

/-- The fields `download_youtube` reads off the parsed metadata JSON:
`["title"].as_str()`, `["duration"].as_f64()`, `["id"].as_str()`. -/
structure VideoInfo where
  title : Option String
  id : Option String
  duration : Option ℚ
deriving Repr, DecidableEq

/-- One `DownloadResult` (download.rs:10-16). -/
structure DownloadResult where
  output_path : String
  title : Option String
  duration : Option ℚ
  file_size : Option Nat
deriving Repr, DecidableEq

/-- Environment of one `download_youtube` call: what
`ensure_ytdlp`/`ensure_ffmpeg` return, what the metadata query child
reports, the result of `serde_json::from_slice` on its stdout, the
directory snapshot, and what the download child reports.
`sizeAfterDownload` is the `fs::metadata` read of the output path after a
successful download. -/
structure SingleEnv where
  url : String
  outputFolder : String
  ensureYtdlp : Except String String
  ensureFfmpeg : Except String String
  infoSpawnErr : Option String
  infoStatusOk : Bool
  infoStderr : String
  infoParse : Except String VideoInfo
  disk : List FileMeta
  downloadSpawnErr : Option String
  downloadStatusOk : Bool
  downloadStderr : String
  sizeAfterDownload : Option Nat
deriving Repr, DecidableEq

/-- Result of one `download_youtube` call plus whether the
download/conversion child was spawned (everything past the existing-file
check at download.rs:506). -/
structure SingleOutcome where
  result : Except String DownloadResult
  spawnedDownload : Bool
deriving Repr, DecidableEq

/-- The expected output path computed at download.rs:495-503: the
sanitized title joined to the folder with `.mp3`, else the video id (or
`"video"`). -/
def singleOutputPath (folder : String) (vi : VideoInfo) : String :=
  match vi.title.map sanitizeFilename with
  | some t => pathJoin folder (t ++ ".mp3")
  | none => pathJoin folder ((vi.id.getD "video") ++ ".mp3")

/-- `download_youtube` (download.rs:435-556). -/
def downloadYoutube (e : SingleEnv) : SingleOutcome :=
  if !isYoutubeUrl e.url then
    ⟨.error "Invalid YouTube URL. Please provide a valid YouTube video URL.", false⟩
  else
    match e.ensureYtdlp with
    | .error msg => ⟨.error ("Failed to setup yt-dlp: " ++ msg), false⟩
    | .ok _ =>
      match e.ensureFfmpeg with
      | .error msg => ⟨.error ("Failed to setup FFmpeg: " ++ msg), false⟩
      | .ok _ =>
        match e.infoSpawnErr with
        | some er => ⟨.error ("Failed to get video info: " ++ er), false⟩
        | none =>
          if !e.infoStatusOk then
            ⟨.error ("Failed to get video info: " ++ e.infoStderr), false⟩
          else
            match e.infoParse with
            | .error pe => ⟨.error ("Failed to parse video info: " ++ pe), false⟩
            | .ok vi =>
              let title := vi.title.map sanitizeFilename
              let outputPath := singleOutputPath e.outputFolder vi
              if pathExists e.disk outputPath then
                ⟨.ok ⟨outputPath, title, vi.duration, diskSize e.disk outputPath⟩, false⟩
              else
                match e.downloadSpawnErr with
                | some er => ⟨.error ("Download failed: " ++ er), true⟩
                | none =>
                  if !e.downloadStatusOk then
                    ⟨.error ("Download failed: " ++ e.downloadStderr), true⟩
                  else
                    ⟨.ok ⟨outputPath, title, vi.duration, e.sizeAfterDownload⟩, true⟩

/-! ## Progress records and the line classifier
(`process_progress_line`, download.rs:705-955)

`f64` fractions are modelled as exact rationals. -/

/-- `DownloadProgress` (download.rs:25-33). -/
structure DownloadProgress where
  overall_progress : ℚ
  current_song : Option Nat
  total_songs : Option Nat
  song_progress : ℚ
  status : String
  current_title : Option String
deriving Repr, DecidableEq

/-- The mutable state threaded through `process_progress_line` by
reference (download.rs:706-711). -/
structure ProgressState where
  current_song : Nat
  song_progress : ℚ
  status : String
  current_title : Option String
  completed_songs : Nat
deriving Repr, DecidableEq

/-- The caller-side initial values of the classifier state. -/
def initProgressState : ProgressState :=
  ⟨0, 0, "", none, 0⟩

/-- Decimal digit run to a number. -/
def digitsVal (l : List Char) : Nat :=
  l.foldl (fun a c => a * 10 + (c.toNat - 48)) 0

/-- Is every character an ASCII digit? -/
def allDigits (l : List Char) : Bool :=
  l.all isAsciiDigit

/-- Rust `f64::from_str`, restricted to the digit/dot slices the percent
scanner can hand it: `digits`, `digits.digits`, `.digits` and `digits.`
parse to their decimal value; everything else (empty, lone dot, repeated
dots, stray characters) fails, as it does in Rust. -/
def parseRustFloat (l : List Char) : Option ℚ :=
  match findCharIdx '.' l with
  | none =>
    if l.isEmpty then none
    else if allDigits l then some (digitsVal l) else none
  | some i =>
    let intPart := l.take i
    let fracPart := l.drop (i + 1)
    if allDigits intPart && allDigits fracPart && !(intPart.isEmpty && fracPart.isEmpty) then
      some ((digitsVal intPart : ℚ) + (digitsVal fracPart : ℚ) / (10 : ℚ) ^ fracPart.length)
    else none

/-- Rust `usize::from_str`: optional `'+'`, then at least one digit. -/
def parseRustNat (l : List Char) : Option Nat :=
  let core := match l with
    | '+' :: rest => rest
    | l => l
  if core.isEmpty then none
  else if allDigits core then some (digitsVal core) else none

/-- The backwards number scan at download.rs:723-738 (repeated verbatim
at 1167-1180): from just before the `'%'`, walk left over digits and
dots, stopping at the first other character once a digit or dot has been
seen.  Returns `(num_start, found_digit)`. -/
def percentScan (chars : List Char) : Nat → Bool → Nat × Bool
  | 0, found => (0, found)
  | n + 1, found =>
    let ch := chars.getD n ' '
    if isAsciiDigit ch || ch == '.' then percentScan chars n true
    else if found then (n + 1, found)
    else percentScan chars n found

/-- The percent-token extraction shared by both progress parsers
(download.rs:721-743 and 1166-1185): find the first `'%'`, scan backwards
for the number, slice `line[num_start..percent_pos]`, trim, parse. -/
def percentOfLine (line : String) : Option ℚ :=
  let chars := line.toList
  match findCharIdx '%' chars with
  | none => none
  | some percentPos =>
    let scan := percentScan chars percentPos false
    if scan.2 && decide (scan.1 < percentPos) then
      parseRustFloat (rustTrim ((chars.drop scan.1).take (percentPos - scan.1)))
    else none

/-- `percent.min(100.0).max(0.0)` (download.rs:743/1185). -/
def clamp100 (q : ℚ) : ℚ :=
  max (min q 100) 0

/-- The overall-progress formula
`if total > 0 { ((completed + frac) / total) * 100 } else { fallback }`
used at every emission site, with the branch's own `frac` and fallback. -/
def overallAt (completed : Nat) (frac : ℚ) (total : Nat) (fallback : ℚ) : ℚ :=
  if 0 < total then (((completed : ℚ) + frac) / (total : ℚ)) * 100 else fallback

/-- The `[download]` percent branch (download.rs:718-774): parse the
percentage, clamp to `[0,100]`, update and emit only when it moved by
more than `0.1` or the previous value was `0`, then the trailing
`100%`/`>= 99.9` completion snap. -/
def branchDownloadPercent (line : String) (st : ProgressState) (total : Nat) :
    ProgressState × List DownloadProgress :=
  match findCharIdx '%' line.toList with
  | none => (st, [])
  | some _ =>
    let step :=
      match percentOfLine line with
      | none => (st, ([] : List DownloadProgress))
      | some percent =>
        let newProgress := clamp100 percent
        if |newProgress - st.song_progress| > 1/10 ∨ st.song_progress = 0 then
          ({ st with song_progress := newProgress, status := "Downloading..." },
            [⟨overallAt st.completed_songs (newProgress / 100) total newProgress,
              some (st.current_song + 1), some total, newProgress, "Downloading...",
              st.current_title⟩])
        else (st, [])
    let st1 := step.1
    let st2 :=
      if strContains line "100%" ||
          (decide (st1.song_progress ≥ 999/10) && strContains line "[download]") then
        { st1 with song_progress := 100 }
      else st1
    (st2, step.2)

/-- The `[ExtractAudio]` branch (download.rs:776-795): 90% watermark. -/
def branchExtractAudio (st : ProgressState) (total : Nat) :
    ProgressState × List DownloadProgress :=
  ({ st with status := "Extracting audio...", song_progress := 90 },
    [⟨overallAt st.completed_songs (9/10) total 90, some (st.current_song + 1),
      some total, 90, "Extracting audio...", st.current_title⟩])

/-- The `[Merger]` branch (download.rs:797-816): 95% watermark. -/
def branchMerger (st : ProgressState) (total : Nat) :
    ProgressState × List DownloadProgress :=
  ({ st with status := "Converting to MP3...", song_progress := 95 },
    [⟨overallAt st.completed_songs (19/20) total 95, some (st.current_song + 1),
      some total, 95, "Converting to MP3...", st.current_title⟩])

/-- The `[youtube]` new-item branch (download.rs:819-856). -/
def branchYoutube (line : String) (st : ProgressState) (total : Nat) :
    ProgressState × List DownloadProgress :=
  if strContains line "Extracting URL" || strContains line "Video ID" ||
      strContains line "Downloading" then
    let completed' :=
      if st.song_progress ≥ 99 ∧ 0 < st.current_song then
        min (st.completed_songs + 1) total
      else st.completed_songs
    let cs' :=
      if st.song_progress ≥ 99 ∨ st.current_song = 0 then st.current_song + 1
      else st.current_song
    if st.song_progress ≥ 99 then
      (⟨cs', 0, "Preparing download...", none, completed'⟩,
        [⟨overallAt completed' 0 total 0, some cs', some total, 0,
          "Preparing download...", none⟩])
    else
      ({ st with completed_songs := completed', current_song := cs' }, [])
  else (st, [])

/-- The destination/100% completion branch (download.rs:859-882).  Its
guard requires `"[download]"`, which the chain's first branch already
captured, so it is unreachable; it is transcribed for fidelity. -/
def branchDestination (st : ProgressState) (total : Nat) :
    ProgressState × List DownloadProgress :=
  if st.song_progress < 100 then
    (⟨st.current_song, 100, "Download complete", st.current_title, st.completed_songs + 1⟩,
      [⟨overallAt (st.completed_songs + 1) 0 total 100, some (st.current_song + 1),
        some total, 100, "Download complete", st.current_title⟩])
  else (st, [])

/-- The playlist item-number branch (download.rs:884-912). -/
def branchPlaylist (line : String) (st : ProgressState) (total : Nat) :
    ProgressState × List DownloadProgress :=
  match findSubIdx "item".toList line.toList with
  | none => (st, [])
  | some itemStart =>
    let rest := line.toList.drop (itemStart + 4)
    match findCharIdx ' ' rest with
    | none => (st, [])
    | some numEnd =>
      match parseRustNat (rustTrim (rest.take numEnd)) with
      | none => (st, [])
      | some itemNum =>
        let cs' := itemNum - 1
        (⟨cs', 0, "Starting download...", st.current_title, st.completed_songs⟩,
          [⟨overallAt st.completed_songs 0 total 0, some (cs' + 1), some total, 0,
            "Starting download...", st.current_title⟩])

/-- The if/else-if chain of `process_progress_line`
(download.rs:715-912), without the trailing title block. -/
def classifyLine (line : String) (st : ProgressState) (total : Nat) :
    ProgressState × List DownloadProgress :=
  if strContains line "[download]" then
    branchDownloadPercent line st total
  else if strContains line "[ExtractAudio]" then
    branchExtractAudio st total
  else if strContains line "[Merger]" || strContains line "Merging formats" then
    branchMerger st total
  else if strContains line "[youtube]" then
    branchYoutube line st total
  else if strContains line "[download]" &&
      (strContains line "Destination:" ||
        (strContains line "100%" && decide (st.song_progress < 50))) then
    branchDestination st total
  else if (strContains line "Downloading playlist" || strContains line "[playlist]") &&
      strContains line "Downloading item" then
    branchPlaylist line st total
  else (st, [])

/-- The trailing title-extraction block (download.rs:915-954), which runs
independently of the classifier chain on the state the chain left. -/
def titleBlock (line : String) (st : ProgressState) (total : Nat) :
    ProgressState × List DownloadProgress :=
  if (st.current_title.getD "").isEmpty then
    match findSubIdx "title".toList (rustToLowercase line).toList with
    | some titleMarker =>
      let afterTitle := line.toList.drop (titleMarker + 5)
      match findCharIdx ':' afterTitle with
      | some colon =>
        let potential := rustTrim (afterTitle.drop (colon + 1))
        if !potential.isEmpty && decide (potential.length < 200) then
          ({ st with current_title := some (String.mk potential) },
            [⟨overallAt st.completed_songs (st.song_progress / 100) total st.song_progress,
              some (st.current_song + 1), some total, st.song_progress, st.status,
              some (String.mk potential)⟩])
        else (st, [])
      | none => (st, [])
    | none =>
      if strContains line "[youtube]" && decide (20 < line.length) then
        match findCharIdx ']' line.toList with
        | some i =>
          let potential := rustTrim (line.toList.drop (i + 1))
          if !potential.isEmpty && decide (potential.length < 200) &&
              !hasSubList "http".toList potential then
            ({ st with current_title := some (String.mk potential) }, [])
          else (st, [])
        | none => (st, [])
      else (st, [])
  else (st, [])

/-- `process_progress_line` (download.rs:705-955): the classifier chain
followed by the title block, emitted records in order. -/
def processProgressLine (line : String) (st : ProgressState) (total : Nat) :
    ProgressState × List DownloadProgress :=
  let step1 := classifyLine line st total
  let step2 := titleBlock line step1.1 total
  (step2.1, step1.2 ++ step2.2)

/-- Feed a line sequence through `process_progress_line`, collecting
every emitted record in order. -/
def runProgressLines (lines : List String) (st : ProgressState) (total : Nat) :
    ProgressState × List DownloadProgress :=
  match lines with
  | [] => (st, [])
  | l :: ls =>
    let step1 := processProgressLine l st total
    let step2 := runProgressLines ls step1.1 total
    (step2.1, step1.2 ++ step2.2)

/-! ## The inline per-item progress loop of
`download_playlist_with_progress` (download.rs:1157-1238) -/

/-- One iteration of the inline per-item progress loop
(download.rs:1162-1233): trim the line, skip empty lines, then either the
`[download]` percent rule (epsilon `0.5`) or the
`[ExtractAudio]`/`[Merger]` 95% watermark.  Only the item-local
`song_progress` is mutable; `index`, `total` and the title are fixed for
the item. -/
def processItemLine (index total : Nat) (title : Option String) (song : ℚ)
    (rawLine : String) : ℚ × List DownloadProgress :=
  let lineChars := rustTrim rawLine.toList
  let line := String.mk lineChars
  if lineChars.isEmpty then (song, [])
  else if strContains line "[download]" then
    match percentOfLine line with
    | none => (song, [])
    | some percent =>
      let newProgress := clamp100 percent
      if |newProgress - song| > 1/2 ∨ song = 0 then
        (newProgress,
          [⟨overallAt index (newProgress / 100) total newProgress, some (index + 1),
            some total, newProgress,
            if newProgress ≥ 95 then "Converting to MP3..." else "Downloading...",
            title⟩])
      else (song, [])
  else if strContains line "[ExtractAudio]" || strContains line "[Merger]" then
    (95,
      [⟨overallAt index (19/20) total 95, some (index + 1), some total, 95,
        "Converting to MP3...", title⟩])
  else (song, [])

/-- The whole per-item line loop: fold `processItemLine` over the
transfer's stderr lines, collecting emissions in order. -/
def runItemLines (index total : Nat) (title : Option String) (lines : List String)
    (song : ℚ) : ℚ × List DownloadProgress :=
  match lines with
  | [] => (song, [])
  | l :: ls =>
    let step1 := processItemLine index total title song l
    let step2 := runItemLines index total title ls step1.1
    (step2.1, step1.2 ++ step2.2)

/-- The numeric percentage token of one raw line, as the inline per-item
loop sees it: the parsed percent of the trimmed line when it is nonempty
and contains `"[download]"`. -/
def itemLineToken (rawLine : String) : Option ℚ :=
  let lineChars := rustTrim rawLine.toList
  if lineChars.isEmpty then none
  else if strContains (String.mk lineChars) "[download]" then
    percentOfLine (String.mk lineChars)
  else none

/-- Does a raw line take the inline loop's
`[ExtractAudio]`/`[Merger]` watermark branch (download.rs:1216)? -/
def isWatermarkLine (rawLine : String) : Bool :=
  let lineChars := rustTrim rawLine.toList
  !lineChars.isEmpty &&
  !strContains (String.mk lineChars) "[download]" &&
  (strContains (String.mk lineChars) "[ExtractAudio]" ||
    strContains (String.mk lineChars) "[Merger]")

/-! ## Playlist flow: `download_playlist_with_progress`
(download.rs:958-1302) -/

/-- One flat-playlist JSON entry, reduced to the two fields read at
download.rs:1026-1034. -/
structure PlaylistEntry where
  id : Option String
  url : Option String
deriving Repr, DecidableEq

/-- `PlaylistDownloadResult` (download.rs:18-23). -/
structure PlaylistDownloadResult where
  output_folder : String
  total_videos : Nat
  downloaded_videos : List DownloadResult
deriving Repr, DecidableEq

/-- Environment of one `download_playlist_with_progress` call.
`playlistInfo` collapses the one-shot flat-playlist query: `.error msg`
is the formatted abort message of a spawn or status failure
(download.rs:998-1009), `.ok entries` the entries whose stdout lines
`serde_json` parsed (download.rs:1012-1016).  Per-item observations are
keyed by the item's position in the derived video-URL list: the metadata
title (the `title` field when that item's one-shot query succeeds and
parses, download.rs:1065-1092), the transfer child's spawn error, stderr
capture, progress lines, wait error and exit status, and the files a
successful transfer adds to the output directory (a failed transfer is
modelled as adding none). -/
structure PlaylistEnv where
  url : String
  outputFolder : String
  ensureYtdlp : Except String String
  ensureFfmpeg : Except String String
  playlistInfo : Except String (List PlaylistEntry)
  disk : List FileMeta
  itemTitle : Nat → Option String
  spawnErr : Nat → Option String
  captureStderrOk : Nat → Bool
  itemLines : Nat → List String
  waitErr : Nat → Option String
  exitOk : Nat → Bool
  transferFiles : Nat → List FileMeta

/-- download.rs:1024-1034: derive each item's video URL from the entry's
`id`, else its `url` field; entries with neither contribute nothing. -/
def videoUrlsOf (entries : List PlaylistEntry) : List String :=
  entries.filterMap (fun e =>
    match e.id with
    | some id => some ("https://www.youtube.com/watch?v=" ++ id)
    | none => e.url)

/-- download.rs:1037-1045: the set of `.mp3` paths present before the
run (the model's `disk` is the output directory's contents). -/
def mp3Paths (disk : List FileMeta) : List String :=
  (disk.filter (fun f => pathExtension f.path == some "mp3")).map (·.path)

/-- `s.split(sep).nth(1)`: the piece between the first and second
occurrence of `sep`, when `sep` occurs at all. -/
def rustSplitNth1 (s sep : String) : Option String :=
  match findSubIdx sep.toList s.toList with
  | none => none
  | some i =>
    let after := s.toList.drop (i + sep.length)
    match findSubIdx sep.toList after with
    | none => some (String.mk after)
    | some j => some (String.mk (after.take j))

/-- `s.split(c).next().unwrap()`: the prefix before the first `c`. -/
def splitFirst (s : String) (c : Char) : String :=
  match findCharIdx c s.toList with
  | none => s
  | some i => String.mk (s.toList.take i)

/-- download.rs:1095-1104: the expected output path of one playlist item
(`title` is the already-sanitized metadata title): the title joined with
`.mp3`, else the `v=` id cut at `'&'`, else `video_{n}`. -/
def expectedItemPath (folder : String) (title : Option String) (videoUrl : String)
    (songNum : Nat) : String :=
  match title with
  | some t => pathJoin folder (t ++ ".mp3")
  | none =>
    match (rustSplitNth1 videoUrl "v=").map (fun p => splitFirst p '&') with
    | some id => pathJoin folder (id ++ ".mp3")
    | none => pathJoin folder ("video_" ++ toString songNum ++ ".mp3")

/-- download.rs:1260-1283: the first `.mp3` directory entry absent from
the pre-run snapshot (the `break` keeps only the first). -/
def findNewMp3 (dirNow : List FileMeta) (existing : List String) : Option FileMeta :=
  dirNow.find? (fun f => pathExtension f.path == some "mp3" && !existing.contains f.path)

/-- The `current_title` of playlist item `i` (download.rs:1072-1078): the
sanitized metadata title when the per-item query produced one. -/
def itemCurrentTitle (env : PlaylistEnv) (i : Nat) : Option String :=
  (env.itemTitle i).map sanitizeFilename

/-- The expected output path of playlist item `i` with video URL
`videoUrl` (download.rs:1095-1104). -/
def itemExpectedPath (env : PlaylistEnv) (i : Nat) (videoUrl : String) : String :=
  expectedItemPath env.outputFolder (itemCurrentTitle env i) videoUrl (i + 1)

/-- The skip emission for playlist item `i` (download.rs:1120-1128). -/
def skipEmission (env : PlaylistEnv) (total i : Nat) : DownloadProgress :=
  ⟨(((i : ℚ) + 1) / (total : ℚ)) * 100, some (i + 1), some total, 100,
    "Already exists, skipping...", itemCurrentTitle env i⟩

/-- Count the indices `idx, idx+1, ..., idx+n-1` satisfying `f`. -/
def countIdx (f : Nat → Bool) (idx n : Nat) : Nat :=
  match n with
  | 0 => 0
  | n + 1 => (if f idx then 1 else 0) + countIdx f (idx + 1) n

/-- Accumulated observable effects of the per-item loop: the directory
contents, the collected `DownloadResult`s, how many transfer children
were spawned, the emissions, and — when a `?` aborted the loop — the
abort message. -/
structure LoopOut where
  dir : List FileMeta
  downloaded : List DownloadResult
  spawns : Nat
  emissions : List DownloadProgress
  abort : Option String
deriving Repr

/-- The per-item loop of `download_playlist_with_progress`
(download.rs:1050-1284), one recursive step per video URL (`idx` is the
`enumerate()` index).  Each step: the "Preparing download..." emission,
the per-item metadata title and its emission, the existing-file skip
check (synthesize a result and a skip emission, spawn nothing), else
spawn the transfer (aborting the whole call on spawn/stderr/wait
failures), run the inline progress loop over its lines, and on non-zero
exit skip the item, else emit completion and scan for the new file. -/
def playlistLoop (env : PlaylistEnv) (existing : List String) (total : Nat) :
    Nat → List String → List FileMeta → List DownloadResult → Nat →
    List DownloadProgress → LoopOut
  | _, [], dir, downloaded, spawns, ems => ⟨dir, downloaded, spawns, ems, none⟩
  | index, videoUrl :: rest, dir, downloaded, spawns, ems =>
    let songNum := index + 1
    let startEm : DownloadProgress :=
      ⟨((index : ℚ) / (total : ℚ)) * 100, some songNum, some total, 0,
        "Preparing download...", none⟩
    let currentTitle := itemCurrentTitle env index
    let titleEms : List DownloadProgress :=
      match currentTitle with
      | some t =>
        [⟨((index : ℚ) / (total : ℚ)) * 100, some songNum, some total, 0,
          "Starting download...", some t⟩]
      | none => []
    let emsA := ems ++ [startEm] ++ titleEms
    let expected := itemExpectedPath env index videoUrl
    if pathExists dir expected then
      let entry : DownloadResult := ⟨expected, currentTitle, none, diskSize dir expected⟩
      playlistLoop env existing total (index + 1) rest dir (downloaded ++ [entry])
        spawns (emsA ++ [skipEmission env total index])
    else
      match env.spawnErr index with
      | some er =>
        ⟨dir, downloaded, spawns,
          emsA, some ("Failed to start download for video " ++ toString songNum ++ ": " ++ er)⟩
      | none =>
        if !env.captureStderrOk index then
          ⟨dir, downloaded, spawns + 1, emsA, some "Failed to capture stderr"⟩
        else
          let lineEms := (runItemLines index total currentTitle (env.itemLines index) 0).2
          match env.waitErr index with
          | some er =>
            ⟨dir, downloaded, spawns + 1, emsA ++ lineEms,
              some ("Failed to wait for process: " ++ er)⟩
          | none =>
            if !env.exitOk index then
              playlistLoop env existing total (index + 1) rest dir downloaded
                (spawns + 1) (emsA ++ lineEms)
            else
              let completeEm : DownloadProgress :=
                ⟨(((index : ℚ) + 1) / (total : ℚ)) * 100, some songNum, some total, 100,
                  "Completed", currentTitle⟩
              let dir' := dir ++ env.transferFiles index
              let downloaded' :=
                match findNewMp3 dir' existing with
                | some f =>
                  downloaded ++ [⟨f.path, (pathFileStem f.path).or currentTitle, none, some f.size⟩]
                | none => downloaded
              playlistLoop env existing total (index + 1) rest dir' downloaded'
                (spawns + 1) (emsA ++ lineEms ++ [completeEm])

/-- Observable outcome of one `download_playlist_with_progress` call. -/
structure PlaylistOutcome where
  result : Except String PlaylistDownloadResult
  spawns : Nat
  emissions : List DownloadProgress
deriving Repr

/-- `download_playlist_with_progress` (download.rs:958-1302): URL
validation, provisioning, flat-playlist enumeration, the per-item loop,
and the final 100% emission. -/
def downloadPlaylistWithProgress (env : PlaylistEnv) : PlaylistOutcome :=
  match playlistUrlValidation env.url with
  | some msg => ⟨.error msg, 0, []⟩
  | none =>
    match env.ensureYtdlp with
    | .error e => ⟨.error ("Failed to setup yt-dlp: " ++ e), 0, []⟩
    | .ok _ =>
      match env.ensureFfmpeg with
      | .error e => ⟨.error ("Failed to setup FFmpeg: " ++ e), 0, []⟩
      | .ok _ =>
        match env.playlistInfo with
        | .error e => ⟨.error e, 0, []⟩
        | .ok entries =>
          let total := entries.length
          if total = 0 then
            ⟨.error "Playlist appears to be empty or could not be accessed.", 0, []⟩
          else
            let videoUrls := videoUrlsOf entries
            let existing := mp3Paths env.disk
            let out := playlistLoop env existing total 0 videoUrls env.disk [] 0 []
            match out.abort with
            | some e => ⟨.error e, out.spawns, out.emissions⟩
            | none =>
              let finalEm : DownloadProgress :=
                ⟨100, some total, some total, 100, "Complete!", none⟩
              ⟨.ok ⟨env.outputFolder, total, out.downloaded⟩, out.spawns,
                out.emissions ++ [finalEm]⟩

/-- Concrete three-item playlist used by the C2/C3 witnesses. -/
def witnessEntries : List PlaylistEntry :=
  [⟨some "id0", none⟩, ⟨some "id1", none⟩, ⟨some "id2", none⟩]

/-- Concrete environment for the C2 witness: empty output directory,
item 2's transfer exits non-zero, each success drops `out/new.mp3`. -/
def c2WitnessEnv : PlaylistEnv :=
  ⟨"https://www.youtube.com/playlist?list=XYZ", "out", .ok "yt-dlp", .ok "ffmpeg",
    .ok witnessEntries, [],
    fun _ => none, fun _ => none, fun _ => true, fun _ => [], fun _ => none,
    fun i => !(i == 1), fun _ => [⟨"out/new.mp3", 4242⟩]⟩

/-- Concrete environment for the C3 witness: item 1's expected artifact
`out/Song A.mp3` already on disk, all transfers succeed. -/
def c3WitnessEnv : PlaylistEnv :=
  ⟨"https://www.youtube.com/playlist?list=XYZ", "out", .ok "yt-dlp", .ok "ffmpeg",
    .ok witnessEntries, [⟨"out/Song A.mp3", 777⟩],
    (fun i => if i == 0 then some "Song A" else none), fun _ => none, fun _ => true,
    fun _ => [], fun _ => none, fun _ => true,
    fun _ => [⟨"out/new.mp3", 4242⟩]⟩

/-! ## Helper lemmas -/

theorem dropTrailing_pref (p : Char → Bool) (l : List Char) :
    dropTrailing p l <+: l := by
  unfold dropTrailing
  have h : l.reverse.dropWhile p <:+ l.reverse := List.dropWhile_suffix p
  obtain ⟨t, ht⟩ := h
  refine ⟨t.reverse, ?_⟩
  have := congrArg List.reverse ht
  simpa using this

theorem mem_of_mem_dropTrailing {p : Char → Bool} {l : List Char} {c : Char}
    (h : c ∈ dropTrailing p l) : c ∈ l :=
  (dropTrailing_pref p l).sublist.subset h

theorem head?_dropWhile {p : Char → Bool} :
    ∀ {l : List Char} {c : Char}, (l.dropWhile p).head? = some c → p c = false := by
  intro l
  induction l with
  | nil => intro c h; simp [List.dropWhile] at h
  | cons a as ih =>
    intro c h
    by_cases hp : p a = true
    · rw [List.dropWhile_cons_of_pos hp] at h
      exact ih h
    · rw [List.dropWhile_cons_of_neg hp] at h
      simp at h
      rw [← h]
      exact Bool.eq_false_iff.mpr hp

theorem getLast?_dropTrailing {p : Char → Bool} {l : List Char} {c : Char}
    (h : (dropTrailing p l).getLast? = some c) : p c = false := by
  unfold dropTrailing at h
  rw [List.getLast?_reverse] at h
  exact head?_dropWhile h

theorem head?_of_pref {l1 l2 : List Char} {c : Char}
    (h1 : l1 <+: l2) (hc : l1.head? = some c) : l2.head? = some c := by
  obtain ⟨t, rfl⟩ := h1
  cases l1 with
  | nil => simp at hc
  | cons a as => simpa using hc

theorem pathExists_iff {disk : List FileMeta} {p : String} :
    pathExists disk p = true ↔ ∃ f ∈ disk, f.path = p := by
  unfold pathExists
  rw [List.any_eq_true]
  constructor
  · rintro ⟨f, hf, he⟩
    exact ⟨f, hf, by simpa using he⟩
  · rintro ⟨f, hf, he⟩
    exact ⟨f, hf, by simpa using he⟩

theorem pathExists_of_subset {d1 d2 : List FileMeta} {p : String}
    (h : pathExists d1 p = true) (hsub : ∀ f ∈ d1, f ∈ d2) :
    pathExists d2 p = true := by
  obtain ⟨f, hf, he⟩ := pathExists_iff.mp h
  exact pathExists_iff.mpr ⟨f, hsub f hf, he⟩

theorem pathExists_eq_false {disk : List FileMeta} {p : String}
    (h : ∀ f ∈ disk, f.path ≠ p) : pathExists disk p = false := by
  cases hb : pathExists disk p with
  | false => rfl
  | true =>
    obtain ⟨f, hf, he⟩ := pathExists_iff.mp hb
    exact absurd he (h f hf)

theorem clamp100_nonneg (q : ℚ) : 0 ≤ clamp100 q :=
  le_max_right _ _

theorem clamp100_le (q : ℚ) : clamp100 q ≤ 100 :=
  max_le (min_le_right _ _) (by norm_num)

theorem clamp100_mono {q q' : ℚ} (h : q ≤ q') : clamp100 q ≤ clamp100 q' :=
  max_le_max (min_le_min h le_rfl) le_rfl

theorem overallAt_nonneg {completed : Nat} {frac : ℚ} {total : Nat} {fallback : ℚ}
    (hf : 0 ≤ frac) (hfb : 0 ≤ fallback) :
    0 ≤ overallAt completed frac total fallback := by
  unfold overallAt
  split
  · apply mul_nonneg _ (by norm_num)
    exact div_nonneg (add_nonneg (Nat.cast_nonneg _) hf) (Nat.cast_nonneg _)
  · exact hfb

theorem overallAt_song_mono (i t : Nat) {s s' : ℚ} (h : s ≤ s') :
    overallAt i (s / 100) t s ≤ overallAt i (s' / 100) t s' := by
  unfold overallAt
  split
  · rename_i ht
    have htq : (0 : ℚ) < (t : ℚ) := by exact_mod_cast ht
    apply mul_le_mul_of_nonneg_right _ (by norm_num : (0:ℚ) ≤ 100)
    apply (div_le_div_iff_of_pos_right htq).mpr
    linarith
  · exact h

theorem sanitizeChar_ok (a : Char) :
    sanitizeChar a ∉ (['<', '>', ':', '"', '/', '\\', '|', '?', '*', '\x00'] : List Char) ∧
    isRustControl (sanitizeChar a) = false := by
  unfold sanitizeChar
  split
  all_goals first
  | exact ⟨by decide, by decide⟩
  | (split
     · exact ⟨by decide, by decide⟩
     · rename_i hctl
       refine ⟨?_, Bool.eq_false_iff.mpr hctl⟩
       intro hmem
       fin_cases hmem <;> simp_all)

/-! ## Theorems for the claims -/

/-- C9 counterexample: `sanitize_filename` can return a string ending in
`'.'`.  On input `"a. ."`, `trim` leaves the string unchanged,
`trim_end_matches('.')` strips the final dot exposing a space,
`trim_end_matches(' ')` strips that space and exposes the inner dot,
which nothing removes — the result is `"a."`. -/
theorem c9_sanitize_trailing_dot_counterexample :
    sanitizeFilename "a. ." = "a." ∧
    (sanitizeFilename "a. .").toList.getLast? = some '.' := by
  constructor <;> decide

/-- C9 (amended): every character of `sanitize_filename`'s result is
outside the forbidden set `< > : " / \ | ? * NUL` and is not a control
character (each such input character is replaced by `'_'`); the result
has no leading whitespace and does not end with the space character.  It
may, however, end with `'.'` (or with non-ASCII trailing whitespace)
when trailing dots and spaces are interleaved, so the claim's trailing
guarantee is weakened exactly as the counterexample forces. -/
theorem c9_sanitize_filename_amended (s : String) :
    (∀ c ∈ (sanitizeFilename s).toList,
      c ∉ (['<', '>', ':', '"', '/', '\\', '|', '?', '*', '\x00'] : List Char) ∧
      isRustControl c = false) ∧
    (∀ c, (sanitizeFilename s).toList.head? = some c → isRustWhitespace c = false) ∧
    (∀ c, (sanitizeFilename s).toList.getLast? = some c → c ≠ ' ') := by
  have hlist : (sanitizeFilename s).toList =
      dropTrailing (· == ' ')
        (dropTrailing (· == '.')
          (rustTrim (s.toList.map sanitizeChar))) := rfl
  refine ⟨?_, ?_, ?_⟩
  · intro c hc
    rw [hlist] at hc
    have hc1 := mem_of_mem_dropTrailing hc
    have hc2 := mem_of_mem_dropTrailing hc1
    unfold rustTrim at hc2
    have hc3 := mem_of_mem_dropTrailing hc2
    have hc4 : c ∈ s.toList.map sanitizeChar :=
      (List.dropWhile_suffix _).sublist.subset hc3
    obtain ⟨a, _, ha⟩ := List.mem_map.mp hc4
    rw [← ha]
    exact sanitizeChar_ok a
  · intro c hc
    rw [hlist] at hc
    have hc1 := head?_of_pref (dropTrailing_pref _ _) hc
    have hc2 := head?_of_pref (dropTrailing_pref _ _) hc1
    unfold rustTrim at hc2
    have hc3 := head?_of_pref (dropTrailing_pref _ _) hc2
    exact head?_dropWhile hc3
  · intro c hc
    rw [hlist] at hc
    have := getLast?_dropTrailing hc
    intro hceq
    rw [hceq] at this
    simp at this

/-- C9 amended-claim witness instantiation. -/
theorem c9_sanitize_filename_amended_witness :
    isRustControl 'H' = false ∧ isRustWhitespace 'H' = false :=
  ⟨((c9_sanitize_filename_amended "  Hi.  ").1 'H' (by decide)).2,
    (c9_sanitize_filename_amended "  Hi.  ").2.1 'H' (by decide)⟩

/-- C10: every URL `is_playlist_url` accepts is also accepted by
`is_youtube_url` (the playlist hosts `youtube.com/watch` and
`youtube.com/playlist` are both among `is_youtube_url`'s disjuncts), so
the playlist branch `download_from_youtube` selects can never hit
`download_playlist_with_progress`'s invalid-YouTube-URL early return. -/
theorem c10_playlist_url_implies_youtube_url (u : String)
    (h : isPlaylistUrl u = true) :
    isYoutubeUrl u = true ∧ playlistUrlValidation u = none := by
  have h2 : (strContains (rustToLowercase u) "youtube.com/watch" ||
      strContains (rustToLowercase u) "youtube.com/playlist") = true := by
    have h' := h
    simp only [isPlaylistUrl, Bool.and_eq_true] at h'
    exact h'.2
  have hy : isYoutubeUrl u = true := by
    simp only [isYoutubeUrl, Bool.or_eq_true]
    cases ha : strContains (rustToLowercase u) "youtube.com/watch" with
    | true => tauto
    | false =>
      have hb : strContains (rustToLowercase u) "youtube.com/playlist" = true := by
        rw [ha] at h2
        simpa using h2
      tauto
  refine ⟨hy, ?_⟩
  simp [playlistUrlValidation, hy, h]

/-- C10 witness: a concrete playlist URL. -/
theorem c10_playlist_url_implies_youtube_url_witness :
    isYoutubeUrl "https://www.youtube.com/playlist?list=XYZ" = true ∧
    playlistUrlValidation "https://www.youtube.com/playlist?list=XYZ" = none :=
  c10_playlist_url_implies_youtube_url _ (by decide)

/-- C1: `extract_binary`'s cache policy.  With the cache path resolved:
a zero-sized cached file is deleted and never returned; a non-empty
cached file whose probe succeeds is returned as-is without extraction;
a failed probe deletes the cache entry and re-extracts; the fast path is
taken only when the cached file was non-empty and probed successfully;
and a fresh-extraction success implies the bundled copy was non-empty and
the atomic copy ran. -/
theorem c1_extract_binary_cache_policy (e : DepsEnv) (p : String)
    (hp : e.extractedPath = some p) :
    (e.cacheExists = true → e.cacheSize = 0 →
      (extractBinary e).removedCache = true ∧ (extractBinary e).servedFromCache = false) ∧
    (e.cacheExists = true → e.cacheSize ≠ 0 → e.probeOk = true →
      extractBinary e = ⟨.ok p, true, false⟩) ∧
    (e.cacheExists = true → e.cacheSize ≠ 0 → e.probeOk = false →
      (extractBinary e).removedCache = true ∧ (extractBinary e).servedFromCache = false) ∧
    ((extractBinary e).servedFromCache = true →
      e.cacheExists = true ∧ e.cacheSize ≠ 0 ∧ e.probeOk = true ∧
      extractBinary e = ⟨.ok p, true, false⟩) ∧
    ((extractBinary e).result = .ok p → (extractBinary e).servedFromCache = false →
      e.copyOk = true ∧ e.bundledSize ≠ 0) := by
  obtain ⟨ep, ce, cs, pr, rr, be, bm, bs, co⟩ := e
  simp only at hp
  subst hp
  cases rr <;> cases ce <;> cases pr <;> cases be <;> cases bm <;> cases co <;>
    by_cases hcs : cs = 0 <;> by_cases hbs : bs = 0 <;>
    simp_all [extractBinary, extractFresh]

/-- C1 witness: a concrete environment with a non-empty cached file
whose probe fails, forcing delete-and-re-extract. -/
theorem c1_extract_binary_cache_policy_witness :
    (extractBinary ⟨some "cache/yt-dlp", true, 5, false, some "res/yt-dlp", true, true, 7, true⟩).removedCache = true ∧
    (extractBinary ⟨some "cache/yt-dlp", true, 5, false, some "res/yt-dlp", true, true, 7, true⟩).servedFromCache = false :=
  (c1_extract_binary_cache_policy
    ⟨some "cache/yt-dlp", true, 5, false, some "res/yt-dlp", true, true, 7, true⟩
    "cache/yt-dlp" rfl).2.2.1 rfl (by decide) rfl

theorem downloadYoutube_char (e : SingleEnv) (y z : String) (vi : VideoInfo)
    (hurl : isYoutubeUrl e.url = true)
    (hy : e.ensureYtdlp = .ok y) (hz : e.ensureFfmpeg = .ok z)
    (hsp : e.infoSpawnErr = none) (hst : e.infoStatusOk = true)
    (hparse : e.infoParse = .ok vi) :
    downloadYoutube e =
      if pathExists e.disk (singleOutputPath e.outputFolder vi) then
        ⟨.ok ⟨singleOutputPath e.outputFolder vi, vi.title.map sanitizeFilename,
          vi.duration, diskSize e.disk (singleOutputPath e.outputFolder vi)⟩, false⟩
      else
        match e.downloadSpawnErr with
        | some er => ⟨.error ("Download failed: " ++ er), true⟩
        | none =>
          if !e.downloadStatusOk then
            ⟨.error ("Download failed: " ++ e.downloadStderr), true⟩
          else
            ⟨.ok ⟨singleOutputPath e.outputFolder vi, vi.title.map sanitizeFilename,
              vi.duration, e.sizeAfterDownload⟩, true⟩ := by
  unfold downloadYoutube
  simp only [hurl, hy, hz, hsp, hst, hparse, Bool.not_true, Bool.false_eq_true, if_false]

/-- C4 counterexample: when the metadata query succeeds but its stdout
fails JSON parsing, `download_youtube` aborts the request with a
`"Failed to parse video info"` error (the `?` at download.rs:484-485),
rather than proceeding with a generated fallback name as the claim
states.  The fallback only applies when the JSON parses but carries no
`title` field. -/
theorem c4_metadata_parse_failure_counterexample :
    downloadYoutube ⟨"https://www.youtube.com/watch?v=abc123", "out", .ok "yt-dlp",
        .ok "ffmpeg", none, true, "", .error "EOF while parsing a value at line 1 column 0",
        [], none, true, "", some 3200000⟩ =
      ⟨.error "Failed to parse video info: EOF while parsing a value at line 1 column 0",
        false⟩ := by
  decide

/-- C4 (amended): when the metadata output parses as JSON but the title
field is absent, `download_youtube` proceeds with the fallback name
derived from the video id (or `"video"`); when the JSON parse itself
fails — empty or malformed stdout — the request is aborted with a
`"Failed to parse video info"` error. -/
theorem c4_metadata_fallback_amended (e : SingleEnv) (y z : String)
    (hurl : isYoutubeUrl e.url = true)
    (hy : e.ensureYtdlp = .ok y) (hz : e.ensureFfmpeg = .ok z)
    (hsp : e.infoSpawnErr = none) (hst : e.infoStatusOk = true) :
    (∀ vi : VideoInfo, e.infoParse = .ok vi → vi.title = none →
      ∀ r, (downloadYoutube e).result = .ok r →
        r.output_path = pathJoin e.outputFolder ((vi.id.getD "video") ++ ".mp3") ∧
        r.title = none) ∧
    (∀ m, e.infoParse = .error m →
      downloadYoutube e = ⟨.error ("Failed to parse video info: " ++ m), false⟩) := by
  constructor
  · intro vi hparse htitle r hr
    rw [downloadYoutube_char e y z vi hurl hy hz hsp hst hparse] at hr
    have hpath : singleOutputPath e.outputFolder vi =
        pathJoin e.outputFolder ((vi.id.getD "video") ++ ".mp3") := by
      unfold singleOutputPath
      rw [htitle]
      rfl
    by_cases hex : pathExists e.disk (singleOutputPath e.outputFolder vi) = true
    · rw [if_pos hex] at hr
      simp only [Except.ok.injEq] at hr
      refine ⟨?_, ?_⟩ <;> rw [← hr] <;> simp [hpath, htitle]
    · rw [if_neg hex] at hr
      cases hspw : e.downloadSpawnErr with
      | some er => rw [hspw] at hr; simp at hr
      | none =>
        rw [hspw] at hr
        cases hok : e.downloadStatusOk with
        | false => simp only [hok, Bool.not_false, if_true] at hr; simp at hr
        | true =>
          simp only [hok, Bool.not_true, Bool.false_eq_true, if_false,
            Except.ok.injEq] at hr
          refine ⟨?_, ?_⟩ <;> rw [← hr] <;> simp [hpath, htitle]
  · intro m hparse
    unfold downloadYoutube
    simp only [hurl, hy, hz, hsp, hst, hparse, Bool.not_true, Bool.false_eq_true, if_false]

/-- C4 amended-claim witness: a parse failure aborts with the parse
error, at a concrete environment. -/
theorem c4_metadata_fallback_amended_witness :
    downloadYoutube ⟨"https://www.youtube.com/watch?v=abc123", "out", .ok "yt-dlp",
        .ok "ffmpeg", none, true, "", .error "empty", [], none, true, "", none⟩ =
      ⟨.error ("Failed to parse video info: " ++ "empty"), false⟩ :=
  (c4_metadata_fallback_amended
    ⟨"https://www.youtube.com/watch?v=abc123", "out", .ok "yt-dlp", .ok "ffmpeg",
      none, true, "", .error "empty", [], none, true, "", none⟩
    "yt-dlp" "ffmpeg" (by decide) rfl rfl rfl rfl).2 "empty" rfl

/-- C8: when the expected output file (sanitized title, or the video id
fallback, joined with `.mp3`) already exists, `download_youtube` returns
`Ok` with that path, the title, the duration and the existing file's
size, and spawns no download/conversion child — the existing-file
short-circuit applies to the single-item flow too
(download.rs:506-518). -/
theorem c8_single_existing_file_short_circuit (e : SingleEnv) (y z : String)
    (vi : VideoInfo)
    (hurl : isYoutubeUrl e.url = true)
    (hy : e.ensureYtdlp = .ok y) (hz : e.ensureFfmpeg = .ok z)
    (hsp : e.infoSpawnErr = none) (hst : e.infoStatusOk = true)
    (hparse : e.infoParse = .ok vi)
    (hex : pathExists e.disk (singleOutputPath e.outputFolder vi) = true) :
    downloadYoutube e =
      ⟨.ok ⟨singleOutputPath e.outputFolder vi, vi.title.map sanitizeFilename,
        vi.duration, diskSize e.disk (singleOutputPath e.outputFolder vi)⟩, false⟩ := by
  rw [downloadYoutube_char e y z vi hurl hy hz hsp hst hparse, if_pos hex]

/-- C8 witness: a concrete environment where `out/My Song.mp3` already
exists. -/
theorem c8_single_existing_file_short_circuit_witness :
    downloadYoutube ⟨"https://www.youtube.com/watch?v=abc123", "out", .ok "yt-dlp",
        .ok "ffmpeg", none, true, "", .ok ⟨some "My Song", some "abc123", some 212⟩,
        [⟨"out/My Song.mp3", 999⟩], none, true, "", none⟩ =
      ⟨.ok ⟨"out/My Song.mp3", some "My Song", some 212, some 999⟩, false⟩ :=
  (c8_single_existing_file_short_circuit
    ⟨"https://www.youtube.com/watch?v=abc123", "out", .ok "yt-dlp", .ok "ffmpeg",
      none, true, "", .ok ⟨some "My Song", some "abc123", some 212⟩,
      [⟨"out/My Song.mp3", 999⟩], none, true, "", none⟩
    "yt-dlp" "ffmpeg" ⟨some "My Song", some "abc123", some 212⟩
    (by decide) rfl rfl rfl rfl rfl (by decide)).trans (by decide)

theorem percentOfLine_some_find {line : String} {q : ℚ}
    (h : percentOfLine line = some q) :
    ∃ pp, findCharIdx '%' line.toList = some pp := by
  simp only [percentOfLine] at h
  cases hf : findCharIdx '%' line.toList with
  | none => rw [hf] at h; simp at h
  | some pp => exact ⟨pp, rfl⟩

theorem titleBlock_shape (line : String) (st : ProgressState) (total : Nat) :
    (titleBlock line st total).1.song_progress = st.song_progress ∧
    ∀ rec ∈ (titleBlock line st total).2,
      rec.song_progress = st.song_progress ∧
      rec.overall_progress =
        overallAt st.completed_songs (st.song_progress / 100) total st.song_progress := by
  unfold titleBlock
  dsimp only
  repeat' (first | split | dsimp only)
  all_goals refine ⟨rfl, ?_⟩
  all_goals intro rec hrec
  all_goals simp only [List.mem_singleton, List.not_mem_nil] at hrec
  all_goals first
    | exact hrec.elim
    | (subst hrec; exact ⟨rfl, rfl⟩)

/-- C5 counterexample: a line whose numeric token is immediately followed
by `'%'` but which lacks the `"[download]"` marker is ignored entirely —
no clamp, no update, no emission — although its token `45.0` differs from
the previous fraction `0` by more than the epsilon.  The classifier's
percent rule only fires on `"[download]"` lines. -/
theorem c5_bare_percent_line_counterexample :
    percentOfLine "45.0%" = some 45 ∧
    processProgressLine "45.0%" initProgressState 1 = (initProgressState, []) := by
  constructor <;> with_unfolding_all decide

/-- C5 (amended): the scenario line sets `song_progress` to `45.2` with
status `"Downloading..."`; and for every line containing `"[download]"`
whose first `'%'` yields a parsable number, the number is clamped to
`[0,100]` and `song_progress` is updated (with an emission carrying the
clamped value) exactly when the clamped value differs from the previous
one by more than `0.1` **or the previous value was `0`**; otherwise (and
absent the `"100%"`/`≥ 99.9` completion snap) the fraction is unchanged
and any emission of the line carries the old fraction. -/
theorem c5_percent_line_amended :
    (processProgressLine "[download]  45.2% of 3.1MiB at 500KiB/s ETA 00:03"
        initProgressState 1 =
      (⟨0, 226/5, "Downloading...", none, 0⟩,
        [⟨226/5, some 1, some 1, 226/5, "Downloading...", none⟩])) ∧
    ∀ (st : ProgressState) (total : Nat) (line : String) (q : ℚ),
      strContains line "[download]" = true →
      percentOfLine line = some q →
      (0 ≤ clamp100 q ∧ clamp100 q ≤ 100) ∧
      ((|clamp100 q - st.song_progress| > 1/10 ∨ st.song_progress = 0) →
        ∃ rest, (processProgressLine line st total).2 =
          ⟨overallAt st.completed_songs (clamp100 q / 100) total (clamp100 q),
            some (st.current_song + 1), some total, clamp100 q, "Downloading...",
            st.current_title⟩ :: rest) ∧
      (¬(|clamp100 q - st.song_progress| > 1/10 ∨ st.song_progress = 0) →
        strContains line "100%" = false → st.song_progress < 999/10 →
        (processProgressLine line st total).1.song_progress = st.song_progress ∧
        ∀ rec ∈ (processProgressLine line st total).2,
          rec.song_progress = st.song_progress) := by
  constructor
  · with_unfolding_all decide
  intro st total line q hdl hq
  obtain ⟨pp, hpp⟩ := percentOfLine_some_find hq
  have hcl : classifyLine line st total = branchDownloadPercent line st total := by
    unfold classifyLine
    rw [if_pos hdl]
  refine ⟨⟨clamp100_nonneg q, clamp100_le q⟩, ?_, ?_⟩
  · intro hcond
    have hb : (branchDownloadPercent line st total).2 =
        [⟨overallAt st.completed_songs (clamp100 q / 100) total (clamp100 q),
          some (st.current_song + 1), some total, clamp100 q, "Downloading...",
          st.current_title⟩] := by
      unfold branchDownloadPercent
      simp only [hpp, hq, if_pos hcond]
    refine ⟨(titleBlock line (classifyLine line st total).1 total).2, ?_⟩
    show (classifyLine line st total).2 ++ _ = _
    rw [hcl, hb]
    rfl
  · intro hcond h100 hlt
    have hsnap : (strContains line "100%" ||
        (decide (st.song_progress ≥ 999/10) && strContains line "[download]")) = false := by
      rw [h100, decide_eq_false (not_le.mpr hlt)]
      rfl
    have hb : branchDownloadPercent line st total = (st, []) := by
      unfold branchDownloadPercent
      simp only [hpp, hq, if_neg hcond]
      simp only [hsnap, Bool.false_eq_true, if_false]
    have hst1 : (processProgressLine line st total).1 = (titleBlock line st total).1 := by
      show (titleBlock line (classifyLine line st total).1 total).1 = _
      rw [hcl, hb]
    have hems : (processProgressLine line st total).2 = (titleBlock line st total).2 := by
      show (classifyLine line st total).2 ++ (titleBlock line (classifyLine line st total).1 total).2 = _
      rw [hcl, hb]
      rfl
    refine ⟨?_, ?_⟩
    · rw [hst1]
      exact (titleBlock_shape line st total).1
    · intro rec hrec
      rw [hems] at hrec
      exact ((titleBlock_shape line st total).2 rec hrec).1

/-- C5 amended-claim witness: the scenario line, from the initial state. -/
theorem c5_percent_line_amended_witness :
    ∃ rest,
      (processProgressLine "[download]  45.2% of 3.1MiB at 500KiB/s ETA 00:03"
          initProgressState 1).2 =
        ⟨overallAt initProgressState.completed_songs (clamp100 (226/5) / 100) 1
            (clamp100 (226/5)),
          some (initProgressState.current_song + 1), some 1, clamp100 (226/5),
          "Downloading...", initProgressState.current_title⟩ :: rest :=
  (c5_percent_line_amended.2 initProgressState 1
    "[download]  45.2% of 3.1MiB at 500KiB/s ETA 00:03" (226/5)
    (by decide) (by with_unfolding_all decide)).2.1 (by with_unfolding_all decide)

theorem branchDownloadPercent_bounds (line : String) (st : ProgressState) (total : Nat)
    (h0 : 0 ≤ st.song_progress) (h1 : st.song_progress ≤ 100) :
    (0 ≤ (branchDownloadPercent line st total).1.song_progress ∧
      (branchDownloadPercent line st total).1.song_progress ≤ 100) ∧
    ∀ rec ∈ (branchDownloadPercent line st total).2,
      0 ≤ rec.song_progress ∧ rec.song_progress ≤ 100 ∧ 0 ≤ rec.overall_progress := by
  unfold branchDownloadPercent
  cases hf : findCharIdx '%' line.toList with
  | none =>
    exact ⟨⟨h0, h1⟩, fun rec h => absurd h (List.not_mem_nil rec)⟩
  | some pp =>
    cases hq : percentOfLine line with
    | none =>
      dsimp only
      refine ⟨?_, fun rec h => absurd h (List.not_mem_nil rec)⟩
      split
      · exact ⟨by norm_num, by norm_num⟩
      · exact ⟨h0, h1⟩
    | some q =>
      dsimp only
      split
      · constructor
        · split
          · exact ⟨by norm_num, by norm_num⟩
          · exact ⟨clamp100_nonneg q, clamp100_le q⟩
        · intro rec h
          simp only [List.mem_singleton] at h
          subst h
          exact ⟨clamp100_nonneg q, clamp100_le q,
            overallAt_nonneg (div_nonneg (clamp100_nonneg q) (by norm_num))
              (clamp100_nonneg q)⟩
      · constructor
        · split
          · exact ⟨by norm_num, by norm_num⟩
          · exact ⟨h0, h1⟩
        · exact fun rec h => absurd h (List.not_mem_nil rec)

theorem branchExtractAudio_bounds (st : ProgressState) (total : Nat) :
    (0 ≤ (branchExtractAudio st total).1.song_progress ∧
      (branchExtractAudio st total).1.song_progress ≤ 100) ∧
    ∀ rec ∈ (branchExtractAudio st total).2,
      0 ≤ rec.song_progress ∧ rec.song_progress ≤ 100 ∧ 0 ≤ rec.overall_progress := by
  refine ⟨⟨by norm_num [branchExtractAudio], by norm_num [branchExtractAudio]⟩, ?_⟩
  intro rec h
  simp only [branchExtractAudio, List.mem_singleton] at h
  subst h
  exact ⟨by norm_num, by norm_num, overallAt_nonneg (by norm_num) (by norm_num)⟩

theorem branchMerger_bounds (st : ProgressState) (total : Nat) :
    (0 ≤ (branchMerger st total).1.song_progress ∧
      (branchMerger st total).1.song_progress ≤ 100) ∧
    ∀ rec ∈ (branchMerger st total).2,
      0 ≤ rec.song_progress ∧ rec.song_progress ≤ 100 ∧ 0 ≤ rec.overall_progress := by
  refine ⟨⟨by norm_num [branchMerger], by norm_num [branchMerger]⟩, ?_⟩
  intro rec h
  simp only [branchMerger, List.mem_singleton] at h
  subst h
  exact ⟨by norm_num, by norm_num, overallAt_nonneg (by norm_num) (by norm_num)⟩

theorem branchYoutube_bounds (line : String) (st : ProgressState) (total : Nat)
    (h0 : 0 ≤ st.song_progress) (h1 : st.song_progress ≤ 100) :
    (0 ≤ (branchYoutube line st total).1.song_progress ∧
      (branchYoutube line st total).1.song_progress ≤ 100) ∧
    ∀ rec ∈ (branchYoutube line st total).2,
      0 ≤ rec.song_progress ∧ rec.song_progress ≤ 100 ∧ 0 ≤ rec.overall_progress := by
  unfold branchYoutube
  split
  · dsimp only
    split
    · refine ⟨⟨le_refl 0, by norm_num⟩, ?_⟩
      intro rec h
      simp only [List.mem_singleton] at h
      subst h
      exact ⟨le_refl 0, by norm_num, overallAt_nonneg (le_refl 0) (le_refl 0)⟩
    · exact ⟨⟨h0, h1⟩, fun rec h => absurd h (List.not_mem_nil rec)⟩
  · exact ⟨⟨h0, h1⟩, fun rec h => absurd h (List.not_mem_nil rec)⟩

theorem branchDestination_bounds (st : ProgressState) (total : Nat)
    (h0 : 0 ≤ st.song_progress) (h1 : st.song_progress ≤ 100) :
    (0 ≤ (branchDestination st total).1.song_progress ∧
      (branchDestination st total).1.song_progress ≤ 100) ∧
    ∀ rec ∈ (branchDestination st total).2,
      0 ≤ rec.song_progress ∧ rec.song_progress ≤ 100 ∧ 0 ≤ rec.overall_progress := by
  unfold branchDestination
  split
  · refine ⟨⟨by norm_num, by norm_num⟩, ?_⟩
    intro rec h
    simp only [List.mem_singleton] at h
    subst h
    exact ⟨by norm_num, by norm_num, overallAt_nonneg (le_refl 0) (by norm_num)⟩
  · exact ⟨⟨h0, h1⟩, fun rec h => absurd h (List.not_mem_nil rec)⟩

theorem branchPlaylist_bounds (line : String) (st : ProgressState) (total : Nat)
    (h0 : 0 ≤ st.song_progress) (h1 : st.song_progress ≤ 100) :
    (0 ≤ (branchPlaylist line st total).1.song_progress ∧
      (branchPlaylist line st total).1.song_progress ≤ 100) ∧
    ∀ rec ∈ (branchPlaylist line st total).2,
      0 ≤ rec.song_progress ∧ rec.song_progress ≤ 100 ∧ 0 ≤ rec.overall_progress := by
  unfold branchPlaylist
  cases h1' : findSubIdx "item".toList line.toList with
  | none =>
    exact ⟨⟨h0, h1⟩, fun rec h => absurd h (List.not_mem_nil rec)⟩
  | some itemStart =>
    dsimp only
    cases h2' : findCharIdx ' ' (line.toList.drop (itemStart + 4)) with
    | none =>
      exact ⟨⟨h0, h1⟩, fun rec h => absurd h (List.not_mem_nil rec)⟩
    | some numEnd =>
      dsimp only
      cases h3' : parseRustNat (rustTrim ((line.toList.drop (itemStart + 4)).take numEnd)) with
      | none =>
        exact ⟨⟨h0, h1⟩, fun rec h => absurd h (List.not_mem_nil rec)⟩
      | some itemNum =>
        refine ⟨⟨le_refl 0, by norm_num⟩, ?_⟩
        intro rec h
        simp only [List.mem_singleton] at h
        subst h
        exact ⟨le_refl 0, by norm_num, overallAt_nonneg (le_refl 0) (le_refl 0)⟩

theorem classifyLine_bounds (line : String) (st : ProgressState) (total : Nat)
    (h0 : 0 ≤ st.song_progress) (h1 : st.song_progress ≤ 100) :
    (0 ≤ (classifyLine line st total).1.song_progress ∧
      (classifyLine line st total).1.song_progress ≤ 100) ∧
    ∀ rec ∈ (classifyLine line st total).2,
      0 ≤ rec.song_progress ∧ rec.song_progress ≤ 100 ∧ 0 ≤ rec.overall_progress := by
  unfold classifyLine
  split_ifs
  · exact branchDownloadPercent_bounds line st total h0 h1
  · exact branchExtractAudio_bounds st total
  · exact branchMerger_bounds st total
  · exact branchYoutube_bounds line st total h0 h1
  · exact branchDestination_bounds st total h0 h1
  · exact branchPlaylist_bounds line st total h0 h1
  · exact ⟨⟨h0, h1⟩, fun rec h => absurd h (List.not_mem_nil rec)⟩

theorem titleBlock_bounds (line : String) (st : ProgressState) (total : Nat)
    (h0 : 0 ≤ st.song_progress) (h1 : st.song_progress ≤ 100) :
    (0 ≤ (titleBlock line st total).1.song_progress ∧
      (titleBlock line st total).1.song_progress ≤ 100) ∧
    ∀ rec ∈ (titleBlock line st total).2,
      0 ≤ rec.song_progress ∧ rec.song_progress ≤ 100 ∧ 0 ≤ rec.overall_progress := by
  obtain ⟨hst, hem⟩ := titleBlock_shape line st total
  refine ⟨⟨by rw [hst]; exact h0, by rw [hst]; exact h1⟩, ?_⟩
  intro rec h
  obtain ⟨hs, ho⟩ := hem rec h
  rw [hs, ho]
  exact ⟨h0, h1, overallAt_nonneg (div_nonneg h0 (by norm_num)) h0⟩

theorem processProgressLine_bounds (line : String) (st : ProgressState) (total : Nat)
    (h0 : 0 ≤ st.song_progress) (h1 : st.song_progress ≤ 100) :
    (0 ≤ (processProgressLine line st total).1.song_progress ∧
      (processProgressLine line st total).1.song_progress ≤ 100) ∧
    ∀ rec ∈ (processProgressLine line st total).2,
      0 ≤ rec.song_progress ∧ rec.song_progress ≤ 100 ∧ 0 ≤ rec.overall_progress := by
  obtain ⟨hc1, hc2⟩ := classifyLine_bounds line st total h0 h1
  obtain ⟨ht1, ht2⟩ := titleBlock_bounds line (classifyLine line st total).1 total hc1.1 hc1.2
  refine ⟨ht1, ?_⟩
  intro rec h
  rcases List.mem_append.mp h with h | h
  · exact hc2 rec h
  · exact ht2 rec h

theorem runProgressLines_bounds (lines : List String) :
    ∀ (st : ProgressState) (total : Nat),
    0 ≤ st.song_progress → st.song_progress ≤ 100 →
    (0 ≤ (runProgressLines lines st total).1.song_progress ∧
      (runProgressLines lines st total).1.song_progress ≤ 100) ∧
    ∀ rec ∈ (runProgressLines lines st total).2,
      0 ≤ rec.song_progress ∧ rec.song_progress ≤ 100 ∧ 0 ≤ rec.overall_progress := by
  induction lines with
  | nil =>
    intro st total h0 h1
    exact ⟨⟨h0, h1⟩, fun rec h => absurd h (List.not_mem_nil rec)⟩
  | cons l ls ih =>
    intro st total h0 h1
    obtain ⟨hp1, hp2⟩ := processProgressLine_bounds l st total h0 h1
    obtain ⟨hr1, hr2⟩ := ih (processProgressLine l st total).1 total hp1.1 hp1.2
    refine ⟨hr1, ?_⟩
    intro rec h
    rcases List.mem_append.mp h with h | h
    · exact hp2 rec h
    · exact hr2 rec h

/-- C7 counterexample: with adversarial line order the classifier's
`completed_songs` can reach `total_videos` while a later percent line
still adds its item-local share, so an emitted `overall_progress`
exceeds 100.  With `total_videos = 1`, an item-start line, a 100% line, a
second item-start line and a 50% line emit overall fractions
`[100, 100, 150]`. -/
theorem c7_overall_progress_counterexample :
    ((runProgressLines ["[youtube] Extracting URL: a", "[download] 100.0% of x",
        "[youtube] Video ID: b", "[download] 50.0% of x"] initProgressState 1).2.map
      (·.overall_progress)) = [100, 100, 150] ∧ ¬((150 : ℚ) ≤ 100) := by
  constructor
  · with_unfolding_all decide
  · with_unfolding_all decide

/-- C7 (amended): for every input line sequence, in any order, every
record emitted by the classifier from its initial state satisfies
`0 ≤ song_progress ≤ 100` and `0 ≤ overall_progress`; the upper bound
`overall_progress ≤ 100` does **not** hold in adversarial orders (see the
counterexample), which is the only weakening. -/
theorem c7_emission_bounds_amended (lines : List String) (total : Nat) :
    ∀ rec ∈ (runProgressLines lines initProgressState total).2,
      0 ≤ rec.song_progress ∧ rec.song_progress ≤ 100 ∧ 0 ≤ rec.overall_progress :=
  (runProgressLines_bounds lines initProgressState total (le_refl 0)
    (by norm_num [initProgressState])).2

/-- C7 amended-claim witness: the scenario line's emission. -/
theorem c7_emission_bounds_amended_witness :
    0 ≤ (⟨226/5, some 1, some 1, 226/5, "Downloading...", none⟩ : DownloadProgress).song_progress ∧
    (⟨226/5, some 1, some 1, 226/5, "Downloading...", none⟩ : DownloadProgress).song_progress ≤ 100 ∧
    0 ≤ (⟨226/5, some 1, some 1, 226/5, "Downloading...", none⟩ : DownloadProgress).overall_progress :=
  c7_emission_bounds_amended ["[download]  45.2% of 3.1MiB at 500KiB/s ETA 00:03"] 1
    ⟨226/5, some 1, some 1, 226/5, "Downloading...", none⟩ (by with_unfolding_all decide)

theorem processItemLine_cases (index total : Nat) (title : Option String) (song : ℚ)
    (l : String) (hwl : isWatermarkLine l = false) :
    (itemLineToken l = none ∧ processItemLine index total title song l = (song, [])) ∨
    ∃ q, itemLineToken l = some q ∧
      (((|clamp100 q - song| > 1/2 ∨ song = 0) ∧
        processItemLine index total title song l =
          (clamp100 q,
            [⟨overallAt index (clamp100 q / 100) total (clamp100 q), some (index + 1),
              some total, clamp100 q,
              (if clamp100 q ≥ 95 then "Converting to MP3..." else "Downloading..."), title⟩])) ∨
       (¬(|clamp100 q - song| > 1/2 ∨ song = 0) ∧
        processItemLine index total title song l = (song, []))) := by
  by_cases he : (rustTrim l.toList).isEmpty = true
  · left
    constructor
    · simp only [itemLineToken]
      rw [if_pos he]
    · simp only [processItemLine]
      rw [if_pos he]
  · have he' : (rustTrim l.toList).isEmpty = false := by
      revert he
      cases (rustTrim l.toList).isEmpty <;> simp
    by_cases hdl : strContains (String.mk (rustTrim l.toList)) "[download]" = true
    · cases hq : percentOfLine (String.mk (rustTrim l.toList)) with
      | none =>
        left
        constructor
        · simp only [itemLineToken]
          rw [if_neg he, if_pos hdl, hq]
        · simp only [processItemLine]
          rw [if_neg he, if_pos hdl, hq]
      | some q =>
        right
        refine ⟨q, ?_, ?_⟩
        · simp only [itemLineToken]
          rw [if_neg he, if_pos hdl, hq]
        · by_cases hcond : (|clamp100 q - song| > 1/2 ∨ song = 0)
          · left
            refine ⟨hcond, ?_⟩
            simp only [processItemLine]
            rw [if_neg he, if_pos hdl, hq]
            dsimp only
            rw [if_pos hcond]
          · right
            refine ⟨hcond, ?_⟩
            simp only [processItemLine]
            rw [if_neg he, if_pos hdl, hq]
            dsimp only
            rw [if_neg hcond]
    · left
      have hdl' : strContains (String.mk (rustTrim l.toList)) "[download]" = false := by
        revert hdl
        cases strContains (String.mk (rustTrim l.toList)) "[download]" <;> simp
      have hwm : (strContains (String.mk (rustTrim l.toList)) "[ExtractAudio]" ||
          strContains (String.mk (rustTrim l.toList)) "[Merger]") = false := by
        have hw := hwl
        simp only [isWatermarkLine] at hw
        rw [he', hdl'] at hw
        simpa using hw
      constructor
      · simp only [itemLineToken]
        rw [if_neg he, if_neg hdl]
      · have hwm' : ¬((strContains (String.mk (rustTrim l.toList)) "[ExtractAudio]" ||
            strContains (String.mk (rustTrim l.toList)) "[Merger]") = true) := by
          rw [hwm]
          simp
        simp only [processItemLine]
        rw [if_neg he, if_neg hdl, if_neg hwm']

theorem runItemLines_chain (index total : Nat) (title : Option String)
    (lines : List String) :
    ∀ (song : ℚ),
    (∀ l ∈ lines, isWatermarkLine l = false) →
    List.Chain' (· ≤ ·) (lines.filterMap itemLineToken) →
    (∀ q, (lines.filterMap itemLineToken).head? = some q → song ≤ clamp100 q) →
    List.Chain' (· ≤ ·)
      (song :: (runItemLines index total title lines song).2.map (·.song_progress)) ∧
    List.Chain' (· ≤ ·)
      (overallAt index (song / 100) total song ::
        (runItemLines index total title lines song).2.map (·.overall_progress)) := by
  induction lines with
  | nil =>
    intro song _ _ _
    constructor <;> simp [runItemLines]
  | cons l ls ih =>
    intro song hw hch hbound
    have hwl : isWatermarkLine l = false := hw l (List.mem_cons_self l ls)
    have hw' : ∀ x ∈ ls, isWatermarkLine x = false :=
      fun x hx => hw x (List.mem_cons_of_mem l hx)
    rcases processItemLine_cases index total title song l hwl with
      ⟨htok, heq⟩ | ⟨q, htok, hcase⟩
    · have hfm : (l :: ls).filterMap itemLineToken = ls.filterMap itemLineToken := by
        simp [List.filterMap_cons, htok]
      rw [hfm] at hch hbound
      have hres : runItemLines index total title (l :: ls) song =
          runItemLines index total title ls song := by
        simp [runItemLines, heq]
      rw [hres]
      exact ih song hw' hch hbound
    · have hfm : (l :: ls).filterMap itemLineToken = q :: ls.filterMap itemLineToken := by
        simp [List.filterMap_cons, htok]
      rw [hfm] at hch hbound
      obtain ⟨hhead, hch'⟩ := List.chain'_cons'.mp hch
      have hsong : song ≤ clamp100 q := hbound q rfl
      rcases hcase with ⟨_, heq⟩ | ⟨_, heq⟩
      · have hb' : ∀ q', (ls.filterMap itemLineToken).head? = some q' →
            clamp100 q ≤ clamp100 q' :=
          fun q' hq' => clamp100_mono (hhead q' hq')
        obtain ⟨ihs, iho⟩ := ih (clamp100 q) hw' hch' hb'
        have hres : runItemLines index total title (l :: ls) song =
            ((runItemLines index total title ls (clamp100 q)).1,
              (⟨overallAt index (clamp100 q / 100) total (clamp100 q), some (index + 1),
                some total, clamp100 q,
                (if clamp100 q ≥ 95 then "Converting to MP3..." else "Downloading..."),
                title⟩ : DownloadProgress)
                :: (runItemLines index total title ls (clamp100 q)).2) := by
                  simp [runItemLines, heq]
        rw [hres]
        constructor
        · exact List.chain'_cons.mpr ⟨hsong, ihs⟩
        · exact List.chain'_cons.mpr ⟨overallAt_song_mono index total hsong, iho⟩
      · have hb' : ∀ q', (ls.filterMap itemLineToken).head? = some q' →
            song ≤ clamp100 q' :=
          fun q' hq' => le_trans hsong (clamp100_mono (hhead q' hq'))
        have hres : runItemLines index total title (l :: ls) song =
            runItemLines index total title ls song := by
          simp [runItemLines, heq]
        rw [hres]
        exact ih song hw' hch' hb'

/-- C6 counterexample: within one item's transfer, the line sequence
`100%` then `[ExtractAudio]` has monotonically non-decreasing numeric
percentage tokens (`[100]`), yet the inline loop's emissions carry
`song_progress` `100` then `95` and `overall_progress` `100` then `95` —
the audio-extraction watermark resets the fraction to 95 and both
figures decrease. -/
theorem c6_watermark_regression_counterexample :
    (["[download] 100.0% of 3.1MiB", "[ExtractAudio] Destination: out.mp3"].filterMap
      itemLineToken) = [100] ∧
    ((runItemLines 0 1 none
        ["[download] 100.0% of 3.1MiB", "[ExtractAudio] Destination: out.mp3"] 0).2.map
      (fun r => (r.song_progress, r.overall_progress))) = [(100, 100), (95, 95)] ∧
    ¬((100 : ℚ) ≤ 95) := by
  refine ⟨?_, ?_, ?_⟩ <;> with_unfolding_all decide

/-- C6 (amended): within one item's transfer, for a line sequence with
monotonically non-decreasing numeric percentage tokens **and no
`[ExtractAudio]`/`[Merger]` watermark line**, the emitted `song_progress`
values never decrease and the emitted `overall_progress` values never
decrease.  The watermark exclusion is forced by the counterexample; the
cross-item overall monotonicity fails for the same reason. -/
theorem c6_item_monotonicity_amended (index total : Nat) (title : Option String)
    (lines : List String)
    (hw : ∀ l ∈ lines, isWatermarkLine l = false)
    (hch : List.Chain' (· ≤ ·) (lines.filterMap itemLineToken)) :
    List.Chain' (· ≤ ·)
      ((runItemLines index total title lines 0).2.map (·.song_progress)) ∧
    List.Chain' (· ≤ ·)
      ((runItemLines index total title lines 0).2.map (·.overall_progress)) := by
  have h := runItemLines_chain index total title lines 0 hw hch
    (fun q _ => clamp100_nonneg q)
  exact ⟨h.1.tail, h.2.tail⟩

/-- C6 amended-claim witness: two increasing percent lines. -/
theorem c6_item_monotonicity_amended_witness :
    List.Chain' (· ≤ ·)
      ((runItemLines 0 1 none ["[download] 10.0% of x", "[download] 50.0% of x"] 0).2.map
        (·.song_progress)) ∧
    List.Chain' (· ≤ ·)
      ((runItemLines 0 1 none ["[download] 10.0% of x", "[download] 50.0% of x"] 0).2.map
        (·.overall_progress)) :=
  c6_item_monotonicity_amended 0 1 none _ (by decide)
    (by
      have hfm : List.filterMap itemLineToken
          ["[download] 10.0% of x", "[download] 50.0% of x"] = [10, 50] := by
        with_unfolding_all decide
      rw [hfm]
      exact List.chain'_cons.mpr ⟨by norm_num, List.chain'_singleton _⟩)

theorem playlistLoop_step_skip (env : PlaylistEnv) (existing : List String)
    (total idx : Nat) (u : String) (rest : List String) (dir : List FileMeta)
    (downloaded : List DownloadResult) (spawns : Nat) (ems : List DownloadProgress)
    (hpe : pathExists dir (itemExpectedPath env idx u) = true) :
    playlistLoop env existing total idx (u :: rest) dir downloaded spawns ems =
      playlistLoop env existing total (idx + 1) rest dir
        (downloaded ++ [⟨itemExpectedPath env idx u, itemCurrentTitle env idx, none,
          diskSize dir (itemExpectedPath env idx u)⟩])
        spawns
        ((ems ++ [⟨((idx : ℚ) / (total : ℚ)) * 100, some (idx + 1), some total, 0,
            "Preparing download...", none⟩] ++
          (match itemCurrentTitle env idx with
            | some t => [⟨((idx : ℚ) / (total : ℚ)) * 100, some (idx + 1), some total, 0,
                "Starting download...", some t⟩]
            | none => [])) ++ [skipEmission env total idx]) := by
  simp only [playlistLoop]
  rw [if_pos hpe]

theorem playlistLoop_step_fail (env : PlaylistEnv) (existing : List String)
    (total idx : Nat) (u : String) (rest : List String) (dir : List FileMeta)
    (downloaded : List DownloadResult) (spawns : Nat) (ems : List DownloadProgress)
    (hpe : pathExists dir (itemExpectedPath env idx u) = false)
    (hsp : env.spawnErr idx = none) (hcap : env.captureStderrOk idx = true)
    (hwait : env.waitErr idx = none) (hexit : env.exitOk idx = false) :
    playlistLoop env existing total idx (u :: rest) dir downloaded spawns ems =
      playlistLoop env existing total (idx + 1) rest dir downloaded (spawns + 1)
        ((ems ++ [⟨((idx : ℚ) / (total : ℚ)) * 100, some (idx + 1), some total, 0,
            "Preparing download...", none⟩] ++
          (match itemCurrentTitle env idx with
            | some t => [⟨((idx : ℚ) / (total : ℚ)) * 100, some (idx + 1), some total, 0,
                "Starting download...", some t⟩]
            | none => [])) ++
          (runItemLines idx total (itemCurrentTitle env idx) (env.itemLines idx) 0).2) := by
  simp only [playlistLoop, hpe, hsp, hcap, hwait, hexit, Bool.not_true, Bool.not_false,
    Bool.false_eq_true, if_false, if_true]

theorem playlistLoop_step_success (env : PlaylistEnv) (existing : List String)
    (total idx : Nat) (u : String) (rest : List String) (dir : List FileMeta)
    (downloaded : List DownloadResult) (spawns : Nat) (ems : List DownloadProgress)
    (hpe : pathExists dir (itemExpectedPath env idx u) = false)
    (hsp : env.spawnErr idx = none) (hcap : env.captureStderrOk idx = true)
    (hwait : env.waitErr idx = none) (hexit : env.exitOk idx = true) :
    playlistLoop env existing total idx (u :: rest) dir downloaded spawns ems =
      playlistLoop env existing total (idx + 1) rest (dir ++ env.transferFiles idx)
        (match findNewMp3 (dir ++ env.transferFiles idx) existing with
          | some f => downloaded ++
              [⟨f.path, (pathFileStem f.path).or (itemCurrentTitle env idx), none, some f.size⟩]
          | none => downloaded)
        (spawns + 1)
        (((ems ++ [⟨((idx : ℚ) / (total : ℚ)) * 100, some (idx + 1), some total, 0,
            "Preparing download...", none⟩] ++
          (match itemCurrentTitle env idx with
            | some t => [⟨((idx : ℚ) / (total : ℚ)) * 100, some (idx + 1), some total, 0,
                "Starting download...", some t⟩]
            | none => [])) ++
          (runItemLines idx total (itemCurrentTitle env idx) (env.itemLines idx) 0).2) ++
          [⟨(((idx : ℚ) + 1) / (total : ℚ)) * 100, some (idx + 1), some total, 100,
            "Completed", itemCurrentTitle env idx⟩]) := by
  simp only [playlistLoop, hpe, hsp, hcap, hwait, hexit, Bool.not_true, Bool.not_false,
    Bool.false_eq_true, if_false, if_true]

theorem playlistLoop_ems_mono (env : PlaylistEnv) (existing : List String) (total : Nat)
    (urls : List String) :
    ∀ (idx : Nat) (dir : List FileMeta) (downloaded : List DownloadResult)
      (spawns : Nat) (ems : List DownloadProgress) (r : DownloadProgress),
    r ∈ ems →
    r ∈ (playlistLoop env existing total idx urls dir downloaded spawns ems).emissions := by
  induction urls with
  | nil =>
    intro idx dir dl sp ems r hr
    simpa [playlistLoop] using hr
  | cons u rest ih =>
    intro idx dir dl sp ems r hr
    simp only [playlistLoop]
    split
    · exact ih _ _ _ _ _ r (by simp [hr])
    · split
      · simp [hr]
      · split
        · simp [hr]
        · split
          · simp [hr]
          · split
            · exact ih _ _ _ _ _ r (by simp [hr])
            · exact ih _ _ _ _ _ r (by simp [hr])

theorem diskSize_append {d1 d2 : List FileMeta} {p : String}
    (h : pathExists d1 p = true) :
    diskSize (d1 ++ d2) p = diskSize d1 p := by
  have hs : (List.find? (fun f => f.path == p) d1).isSome := by
    apply List.find?_isSome.mpr
    obtain ⟨f, hf, he⟩ := pathExists_iff.mp h
    exact ⟨f, hf, by rw [he]; simp⟩
  unfold diskSize
  rw [List.find?_append]
  cases hfind : List.find? (fun f => f.path == p) d1 with
  | none =>
    rw [hfind] at hs
    simp at hs
  | some g => rfl

theorem playlistLoop_downloaded_mono (env : PlaylistEnv) (existing : List String)
    (total : Nat) (urls : List String) :
    ∀ (idx : Nat) (dir : List FileMeta) (downloaded : List DownloadResult)
      (spawns : Nat) (ems : List DownloadProgress) (r : DownloadResult),
    r ∈ downloaded →
    r ∈ (playlistLoop env existing total idx urls dir downloaded spawns ems).downloaded := by
  induction urls with
  | nil =>
    intro idx dir dl sp ems r hr
    simpa [playlistLoop] using hr
  | cons u rest ih =>
    intro idx dir dl sp ems r hr
    simp only [playlistLoop]
    split
    · exact ih _ _ _ _ _ r (by simp [hr])
    · split
      · simp [hr]
      · split
        · simp [hr]
        · split
          · simp [hr]
          · split
            · exact ih _ _ _ _ _ r hr
            · split
              · exact ih _ _ _ _ _ r (by simp [hr])
              · exact ih _ _ _ _ _ r hr

theorem playlistLoop_char (env : PlaylistEnv) (existing : List String) (total : Nat)
    (ex : Nat → Bool) (urls : List String) :
    ∀ (idx : Nat) (dir : List FileMeta) (downloaded : List DownloadResult)
      (spawns : Nat) (ems : List DownloadProgress),
    (∃ extra, dir = env.disk ++ extra ∧ ∀ f ∈ extra, ∃ j, f ∈ env.transferFiles j) →
    (∀ k, k < urls.length → ex (idx + k) = true →
      pathExists env.disk (itemExpectedPath env (idx + k) (urls.getD k "")) = true) →
    (∀ k, k < urls.length → ex (idx + k) = false →
      pathExists env.disk (itemExpectedPath env (idx + k) (urls.getD k "")) = false ∧
      ∀ j, pathExists (env.transferFiles j)
        (itemExpectedPath env (idx + k) (urls.getD k "")) = false) →
    (∀ k, k < urls.length → ex (idx + k) = false → env.spawnErr (idx + k) = none) →
    (∀ k, k < urls.length → ex (idx + k) = false → env.captureStderrOk (idx + k) = true) →
    (∀ k, k < urls.length → ex (idx + k) = false → env.waitErr (idx + k) = none) →
    (∀ k, k < urls.length → ex (idx + k) = false → env.exitOk (idx + k) = true →
      ∃ f ∈ env.transferFiles (idx + k),
        (pathExtension f.path == some "mp3") = true ∧
        existing.contains f.path = false) →
    (playlistLoop env existing total idx urls dir downloaded spawns ems).abort = none ∧
    (playlistLoop env existing total idx urls dir downloaded spawns ems).spawns
      = spawns + countIdx (fun i => !(ex i)) idx urls.length ∧
    (playlistLoop env existing total idx urls dir downloaded spawns ems).downloaded.length
      = downloaded.length + countIdx (fun i => ex i || env.exitOk i) idx urls.length ∧
    (∀ k, k < urls.length → ex (idx + k) = true →
      skipEmission env total (idx + k) ∈
        (playlistLoop env existing total idx urls dir downloaded spawns ems).emissions) ∧
    (∀ k, k < urls.length → ex (idx + k) = true →
      (⟨itemExpectedPath env (idx + k) (urls.getD k ""), itemCurrentTitle env (idx + k),
        none, diskSize env.disk (itemExpectedPath env (idx + k) (urls.getD k ""))⟩ :
        DownloadResult) ∈
        (playlistLoop env existing total idx urls dir downloaded spawns ems).downloaded) := by
  induction urls with
  | nil =>
    intro idx dir downloaded spawns ems _ _ _ _ _ _ _
    refine ⟨rfl, by simp [playlistLoop, countIdx], by simp [playlistLoop, countIdx],
      ?_, ?_⟩
    · intro k hk
      exact absurd hk (by simp)
    · intro k hk
      exact absurd hk (by simp)
  | cons u rest ih =>
    intro idx dir downloaded spawns ems hpre hexT hexF hsp hcap hwait hfound
    obtain ⟨extra, hdeq, hextra⟩ := hpre
    have hdirI : ∀ f ∈ dir, f ∈ env.disk ∨ ∃ j, f ∈ env.transferFiles j := by
      intro f hf
      rw [hdeq] at hf
      rcases List.mem_append.mp hf with hf | hf
      · exact Or.inl hf
      · exact Or.inr (hextra f hf)
    have hsubI : ∀ f ∈ env.disk, f ∈ dir := by
      intro f hf
      rw [hdeq]
      exact List.mem_append_left _ hf
    have hshift : ∀ (P : Nat → String → Prop),
        (∀ k, k < (u :: rest).length → P (idx + k) ((u :: rest).getD k "")) →
        ∀ k, k < rest.length → P (idx + 1 + k) (rest.getD k "") := by
      intro P hP k hk
      have harith : idx + 1 + k = idx + (k + 1) := by omega
      rw [harith]
      have hlt : k + 1 < (u :: rest).length := by simpa using Nat.succ_lt_succ hk
      have h := hP (k + 1) hlt
      simpa using h
    have hexT' := hshift
      (fun i s => ex i = true → pathExists env.disk (itemExpectedPath env i s) = true) hexT
    have hexF' := hshift
      (fun i s => ex i = false → pathExists env.disk (itemExpectedPath env i s) = false ∧
        ∀ j, pathExists (env.transferFiles j) (itemExpectedPath env i s) = false) hexF
    have hsp' := hshift (fun i _ => ex i = false → env.spawnErr i = none) hsp
    have hcap' := hshift (fun i _ => ex i = false → env.captureStderrOk i = true) hcap
    have hwait' := hshift (fun i _ => ex i = false → env.waitErr i = none) hwait
    have hfound' := hshift
      (fun i _ => ex i = false → env.exitOk i = true →
        ∃ f ∈ env.transferFiles i,
          (pathExtension f.path == some "mp3") = true ∧
          existing.contains f.path = false) hfound
    cases hex : ex idx with
    | true =>
      have h0 := hexT 0 (by simp) (by simpa using hex)
      rw [Nat.add_zero, List.getD_cons_zero] at h0
      have hpe : pathExists dir (itemExpectedPath env idx u) = true :=
        pathExists_of_subset h0 hsubI
      rw [playlistLoop_step_skip env existing total idx u rest dir downloaded spawns ems hpe]
      refine ⟨(ih (idx+1) _ _ _ _ ⟨extra, hdeq, hextra⟩ hexT' hexF' hsp' hcap' hwait'
        hfound').1, ?_, ?_, ?_, ?_⟩
      · rw [(ih (idx+1) _ _ _ _ ⟨extra, hdeq, hextra⟩ hexT' hexF' hsp' hcap' hwait'
          hfound').2.1]
        simp only [countIdx, List.length_cons, hex, Bool.not_true, Bool.false_eq_true,
          if_false]
        omega
      · rw [(ih (idx+1) _ _ _ _ ⟨extra, hdeq, hextra⟩ hexT' hexF' hsp' hcap' hwait'
          hfound').2.2.1]
        simp [countIdx, hex]
        try omega
      · intro k hk hkx
        cases k with
        | zero =>
          rw [Nat.add_zero]
          exact playlistLoop_ems_mono env existing total rest (idx+1) _ _ _ _ _ (by simp)
        | succ k' =>
          have harith : idx + (k' + 1) = idx + 1 + k' := by omega
          rw [harith]
          exact (ih (idx+1) _ _ _ _ ⟨extra, hdeq, hextra⟩ hexT' hexF' hsp' hcap' hwait'
            hfound').2.2.2.1 k' (by simpa using Nat.lt_of_succ_lt_succ hk)
            (by rw [← harith]; exact hkx)
      · intro k hk hkx
        cases k with
        | zero =>
          simp only [Nat.add_zero, List.getD_cons_zero]
          have hsz : diskSize dir (itemExpectedPath env idx u)
              = diskSize env.disk (itemExpectedPath env idx u) := by
            rw [hdeq]
            exact diskSize_append h0
          rw [← hsz]
          exact playlistLoop_downloaded_mono env existing total rest (idx+1) _ _ _ _ _
            (by simp)
        | succ k' =>
          have harith : idx + (k' + 1) = idx + 1 + k' := by omega
          rw [harith, List.getD_cons_succ]
          exact (ih (idx+1) _ _ _ _ ⟨extra, hdeq, hextra⟩ hexT' hexF' hsp' hcap' hwait'
            hfound').2.2.2.2 k' (by simpa using Nat.lt_of_succ_lt_succ hk)
            (by rw [← harith]; exact hkx)
    | false =>
      have h0 := hexF 0 (by simp) (by simpa using hex)
      rw [Nat.add_zero, List.getD_cons_zero] at h0
      have hnotin : ∀ f ∈ dir, f.path ≠ itemExpectedPath env idx u := by
        intro f hf he
        rcases hdirI f hf with hfd | ⟨j, hfj⟩
        · have hx := pathExists_iff.mpr ⟨f, hfd, he⟩
          simp [h0.1] at hx
        · have hx := pathExists_iff.mpr ⟨f, hfj, he⟩
          simp [h0.2 j] at hx
      have hpe : pathExists dir (itemExpectedPath env idx u) = false :=
        pathExists_eq_false hnotin
      have hsp0 := hsp 0 (by simp) (by simpa using hex)
      rw [Nat.add_zero] at hsp0
      have hcap0 := hcap 0 (by simp) (by simpa using hex)
      rw [Nat.add_zero] at hcap0
      have hwait0 := hwait 0 (by simp) (by simpa using hex)
      rw [Nat.add_zero] at hwait0
      cases hexit : env.exitOk idx with
      | false =>
        rw [playlistLoop_step_fail env existing total idx u rest dir downloaded spawns ems
          hpe hsp0 hcap0 hwait0 hexit]
        refine ⟨(ih (idx+1) _ _ _ _ ⟨extra, hdeq, hextra⟩ hexT' hexF' hsp' hcap' hwait'
          hfound').1, ?_, ?_, ?_, ?_⟩
        · rw [(ih (idx+1) _ _ _ _ ⟨extra, hdeq, hextra⟩ hexT' hexF' hsp' hcap' hwait'
            hfound').2.1]
          simp only [countIdx, List.length_cons, hex, Bool.not_false, if_true]
          omega
        · rw [(ih (idx+1) _ _ _ _ ⟨extra, hdeq, hextra⟩ hexT' hexF' hsp' hcap' hwait'
            hfound').2.2.1]
          simp [countIdx, hex, hexit]
          try omega
        · intro k hk hkx
          cases k with
          | zero =>
            rw [Nat.add_zero] at hkx
            rw [hex] at hkx
            cases hkx
          | succ k' =>
            have harith : idx + (k' + 1) = idx + 1 + k' := by omega
            rw [harith]
            exact (ih (idx+1) _ _ _ _ ⟨extra, hdeq, hextra⟩ hexT' hexF' hsp' hcap' hwait'
              hfound').2.2.2.1 k' (by simpa using Nat.lt_of_succ_lt_succ hk)
              (by rw [← harith]; exact hkx)
        · intro k hk hkx
          cases k with
          | zero =>
            rw [Nat.add_zero] at hkx
            rw [hex] at hkx
            cases hkx
          | succ k' =>
            have harith : idx + (k' + 1) = idx + 1 + k' := by omega
            rw [harith, List.getD_cons_succ]
            exact (ih (idx+1) _ _ _ _ ⟨extra, hdeq, hextra⟩ hexT' hexF' hsp' hcap' hwait'
              hfound').2.2.2.2 k' (by simpa using Nat.lt_of_succ_lt_succ hk)
              (by rw [← harith]; exact hkx)
      | true =>
        have hf0 := hfound 0 (by simp) (by simpa using hex)
          (by rw [Nat.add_zero]; exact hexit)
        rw [Nat.add_zero] at hf0
        obtain ⟨f, hfmem, hfmp3, hfex⟩ := hf0
        have hissome : (findNewMp3 (dir ++ env.transferFiles idx) existing).isSome := by
          apply List.find?_isSome.mpr
          exact ⟨f, List.mem_append_right _ hfmem, by rw [hfmp3, hfex]; rfl⟩
        have hpre' : ∃ e2, dir ++ env.transferFiles idx = env.disk ++ e2 ∧
            ∀ f ∈ e2, ∃ j, f ∈ env.transferFiles j := by
          refine ⟨extra ++ env.transferFiles idx, by rw [hdeq, List.append_assoc], ?_⟩
          intro f hf
          rcases List.mem_append.mp hf with hf | hf
          · exact hextra f hf
          · exact ⟨idx, hf⟩
        rw [playlistLoop_step_success env existing total idx u rest dir downloaded spawns
          ems hpe hsp0 hcap0 hwait0 hexit]
        cases hfind : findNewMp3 (dir ++ env.transferFiles idx) existing with
        | none =>
          rw [hfind] at hissome
          simp at hissome
        | some g =>
          refine ⟨(ih (idx+1) _ _ _ _ hpre' hexT' hexF' hsp' hcap' hwait' hfound').1,
            ?_, ?_, ?_, ?_⟩
          · rw [(ih (idx+1) _ _ _ _ hpre' hexT' hexF' hsp' hcap' hwait' hfound').2.1]
            simp only [countIdx, List.length_cons, hex, Bool.not_false, if_true]
            omega
          · rw [(ih (idx+1) _ _ _ _ hpre' hexT' hexF' hsp' hcap' hwait'
              hfound').2.2.1]
            simp [countIdx, hex, hexit]
            try omega
          · intro k hk hkx
            cases k with
            | zero =>
              rw [Nat.add_zero] at hkx
              rw [hex] at hkx
              cases hkx
            | succ k' =>
              have harith : idx + (k' + 1) = idx + 1 + k' := by omega
              rw [harith]
              exact (ih (idx+1) _ _ _ _ hpre' hexT' hexF' hsp' hcap' hwait'
                hfound').2.2.2.1 k' (by simpa using Nat.lt_of_succ_lt_succ hk)
                (by rw [← harith]; exact hkx)
          · intro k hk hkx
            cases k with
            | zero =>
              rw [Nat.add_zero] at hkx
              rw [hex] at hkx
              cases hkx
            | succ k' =>
              have harith : idx + (k' + 1) = idx + 1 + k' := by omega
              rw [harith, List.getD_cons_succ]
              exact (ih (idx+1) _ _ _ _ hpre' hexT' hexF' hsp' hcap' hwait'
                hfound').2.2.2.2 k' (by simpa using Nat.lt_of_succ_lt_succ hk)
                (by rw [← harith]; exact hkx)

theorem videoUrlsOf_length (entries : List PlaylistEntry)
    (h : ∀ e ∈ entries, e.id.isSome ∨ e.url.isSome) :
    (videoUrlsOf entries).length = entries.length := by
  induction entries with
  | nil => rfl
  | cons e es ih =>
    have he := h e (List.mem_cons_self e es)
    have hes : ∀ x ∈ es, x.id.isSome ∨ x.url.isSome :=
      fun x hx => h x (List.mem_cons_of_mem e hx)
    simp only [videoUrlsOf, List.filterMap_cons] at ih ⊢
    cases hid : e.id with
    | some i => simp [hid, ih hes]
    | none =>
      rcases he with hid2 | hurl
      · rw [hid] at hid2
        simp at hid2
      · obtain ⟨uv, hu⟩ := Option.isSome_iff_exists.mp hurl
        simp [hid, hu, ih hes]

theorem countIdx_congr (f g : Nat → Bool) (h : ∀ i, f i = g i) :
    ∀ (n idx : Nat), countIdx f idx n = countIdx g idx n := by
  intro n
  induction n with
  | zero => intro idx; rfl
  | succ n ihn =>
    intro idx
    simp only [countIdx, h idx, ihn (idx + 1)]

theorem countIdx_not_add (f : Nat → Bool) :
    ∀ (n idx : Nat), countIdx (fun i => !(f i)) idx n + countIdx f idx n = n := by
  intro n
  induction n with
  | zero => intro idx; rfl
  | succ n ihn =>
    intro idx
    have h := ihn (idx + 1)
    simp only [countIdx]
    by_cases hx : f idx = true <;> simp [hx] <;> omega

theorem downloadPlaylist_unfolded (env : PlaylistEnv) (y z : String)
    (entries : List PlaylistEntry)
    (hval : playlistUrlValidation env.url = none)
    (hy : env.ensureYtdlp = .ok y) (hz : env.ensureFfmpeg = .ok z)
    (hinfo : env.playlistInfo = .ok entries) (hne : entries ≠ []) :
    downloadPlaylistWithProgress env =
      (match (playlistLoop env (mp3Paths env.disk) entries.length 0 (videoUrlsOf entries)
          env.disk [] 0 []).abort with
       | some e =>
         ⟨.error e,
           (playlistLoop env (mp3Paths env.disk) entries.length 0 (videoUrlsOf entries)
             env.disk [] 0 []).spawns,
           (playlistLoop env (mp3Paths env.disk) entries.length 0 (videoUrlsOf entries)
             env.disk [] 0 []).emissions⟩
       | none =>
         ⟨.ok ⟨env.outputFolder, entries.length,
             (playlistLoop env (mp3Paths env.disk) entries.length 0 (videoUrlsOf entries)
               env.disk [] 0 []).downloaded⟩,
           (playlistLoop env (mp3Paths env.disk) entries.length 0 (videoUrlsOf entries)
             env.disk [] 0 []).spawns,
           (playlistLoop env (mp3Paths env.disk) entries.length 0 (videoUrlsOf entries)
             env.disk [] 0 []).emissions ++
             [⟨100, some entries.length, some entries.length, 100, "Complete!", none⟩]⟩) := by
  simp only [downloadPlaylistWithProgress, hval, hy, hz, hinfo]
  rw [if_neg (fun h => hne (List.length_eq_zero.mp h))]

/-- C2: under a playlist run where validation, provisioning and
enumeration succeed, no expected file pre-exists, and every transfer
child is spawned and awaited cleanly, a non-zero exit for an item does
not abort the request: the returned result has
`total_videos = entries.length` and `downloaded_videos` holds exactly one
entry per item whose transfer exited successfully (failed items
contribute nothing and the loop continues). -/
theorem c2_playlist_partial_failure (env : PlaylistEnv) (y z : String)
    (entries : List PlaylistEntry)
    (hval : playlistUrlValidation env.url = none)
    (hy : env.ensureYtdlp = .ok y) (hz : env.ensureFfmpeg = .ok z)
    (hinfo : env.playlistInfo = .ok entries) (hne : entries ≠ [])
    (hnoskip : ∀ k, k < (videoUrlsOf entries).length →
      pathExists env.disk (itemExpectedPath env k ((videoUrlsOf entries).getD k "")) = false ∧
      ∀ j, pathExists (env.transferFiles j)
        (itemExpectedPath env k ((videoUrlsOf entries).getD k "")) = false)
    (hsp : ∀ k, k < (videoUrlsOf entries).length → env.spawnErr k = none)
    (hcap : ∀ k, k < (videoUrlsOf entries).length → env.captureStderrOk k = true)
    (hwait : ∀ k, k < (videoUrlsOf entries).length → env.waitErr k = none)
    (hfound : ∀ k, k < (videoUrlsOf entries).length → env.exitOk k = true →
      ∃ f ∈ env.transferFiles k,
        (pathExtension f.path == some "mp3") = true ∧
        (mp3Paths env.disk).contains f.path = false) :
    ∃ r, (downloadPlaylistWithProgress env).result = .ok r ∧
      r.total_videos = entries.length ∧
      r.downloaded_videos.length = countIdx env.exitOk 0 (videoUrlsOf entries).length := by
  have H := playlistLoop_char env (mp3Paths env.disk) entries.length (fun _ => false)
    (videoUrlsOf entries) 0 env.disk [] 0 []
    ⟨[], (List.append_nil env.disk).symm, fun f hf => absurd hf (List.not_mem_nil f)⟩
    (fun k hk hkx => by cases hkx)
    (fun k hk _ => by simpa using hnoskip k hk)
    (fun k hk _ => by simpa using hsp k hk)
    (fun k hk _ => by simpa using hcap k hk)
    (fun k hk _ => by simpa using hwait k hk)
    (fun k hk _ hx => by
      have := hfound k hk (by simpa using hx)
      simpa using this)
  rw [downloadPlaylist_unfolded env y z entries hval hy hz hinfo hne]
  cases hab : (playlistLoop env (mp3Paths env.disk) entries.length 0 (videoUrlsOf entries)
      env.disk [] 0 []).abort with
  | some e =>
    rw [hab] at H
    exact absurd H.1 (by simp)
  | none =>
    refine ⟨_, rfl, rfl, ?_⟩
    rw [H.2.2.1]
    rw [countIdx_congr (fun i => (fun _ => false) i || env.exitOk i) env.exitOk
      (fun i => Bool.false_or _) (videoUrlsOf entries).length 0]
    simp

/-- C2 witness: three enumerated items, item 2's transfer exits non-zero,
empty output directory: `total_videos = 3`, `downloaded_videos.len = 2`. -/
theorem c2_playlist_partial_failure_witness :
    ∃ r, (downloadPlaylistWithProgress c2WitnessEnv).result = .ok r ∧
      r.total_videos = 3 ∧ r.downloaded_videos.length = 2 := by
  have hA : ∀ k, k < (videoUrlsOf witnessEntries).length →
      pathExists c2WitnessEnv.disk
        (itemExpectedPath c2WitnessEnv k ((videoUrlsOf witnessEntries).getD k "")) = false := by
    decide
  have hB : ∀ k, k < (videoUrlsOf witnessEntries).length →
      pathExists [(⟨"out/new.mp3", 4242⟩ : FileMeta)]
        (itemExpectedPath c2WitnessEnv k ((videoUrlsOf witnessEntries).getD k "")) = false := by
    decide
  obtain ⟨r, hr, ht, hl⟩ := c2_playlist_partial_failure c2WitnessEnv "yt-dlp" "ffmpeg"
    witnessEntries (by decide) rfl rfl rfl (by decide)
    (fun k hk => ⟨hA k hk, fun j => hB k hk⟩)
    (fun k hk => rfl) (fun k hk => rfl) (fun k hk => rfl)
    (fun k hk hx => ⟨⟨"out/new.mp3", 4242⟩, List.mem_singleton.mpr rfl, by decide, by decide⟩)
  exact ⟨r, hr, by rw [ht]; decide, by rw [hl]; decide⟩

/-- C3: on a playlist run over a directory already holding the expected
artifacts of the items with `ex k = true` (and none of the others, nor
produced by any transfer), exactly `M − N` transfer children are spawned
where `M` is the item count and `N` the number of pre-existing items;
each pre-existing item gets a `"Already exists, skipping..."` emission
and no spawn, the run still returns `Ok` with `total_videos =
entries.length`, and each pre-existing item contributes to
`downloaded_videos` a `DownloadResult` synthesized from the existing
file's metadata: its expected path, the current (sanitized) title, no
duration, and the existing file's on-disk size. -/
theorem c3_playlist_skip_idempotence (env : PlaylistEnv) (y z : String)
    (entries : List PlaylistEntry) (ex : Nat → Bool)
    (hval : playlistUrlValidation env.url = none)
    (hy : env.ensureYtdlp = .ok y) (hz : env.ensureFfmpeg = .ok z)
    (hinfo : env.playlistInfo = .ok entries) (hne : entries ≠ [])
    (hexT : ∀ k, k < (videoUrlsOf entries).length → ex k = true →
      pathExists env.disk (itemExpectedPath env k ((videoUrlsOf entries).getD k "")) = true)
    (hexF : ∀ k, k < (videoUrlsOf entries).length → ex k = false →
      pathExists env.disk (itemExpectedPath env k ((videoUrlsOf entries).getD k "")) = false ∧
      ∀ j, pathExists (env.transferFiles j)
        (itemExpectedPath env k ((videoUrlsOf entries).getD k "")) = false)
    (hsp : ∀ k, k < (videoUrlsOf entries).length → ex k = false → env.spawnErr k = none)
    (hcap : ∀ k, k < (videoUrlsOf entries).length → ex k = false →
      env.captureStderrOk k = true)
    (hwait : ∀ k, k < (videoUrlsOf entries).length → ex k = false → env.waitErr k = none)
    (hfound : ∀ k, k < (videoUrlsOf entries).length → ex k = false →
      env.exitOk k = true →
      ∃ f ∈ env.transferFiles k,
        (pathExtension f.path == some "mp3") = true ∧
        (mp3Paths env.disk).contains f.path = false) :
    (downloadPlaylistWithProgress env).spawns =
      (videoUrlsOf entries).length - countIdx ex 0 (videoUrlsOf entries).length ∧
    (∃ r, (downloadPlaylistWithProgress env).result = .ok r ∧
      r.total_videos = entries.length ∧
      ∀ k, k < (videoUrlsOf entries).length → ex k = true →
        (⟨itemExpectedPath env k ((videoUrlsOf entries).getD k ""),
          itemCurrentTitle env k, none,
          diskSize env.disk (itemExpectedPath env k ((videoUrlsOf entries).getD k ""))⟩ :
          DownloadResult) ∈ r.downloaded_videos) ∧
    (∀ k, k < (videoUrlsOf entries).length → ex k = true →
      skipEmission env entries.length k ∈ (downloadPlaylistWithProgress env).emissions) := by
  have H := playlistLoop_char env (mp3Paths env.disk) entries.length ex
    (videoUrlsOf entries) 0 env.disk [] 0 []
    ⟨[], (List.append_nil env.disk).symm, fun f hf => absurd hf (List.not_mem_nil f)⟩
    (fun k hk hkx => by
      have := hexT k hk (by simpa using hkx)
      simpa using this)
    (fun k hk hkx => by
      have := hexF k hk (by simpa using hkx)
      simpa using this)
    (fun k hk hkx => by simpa using hsp k hk (by simpa using hkx))
    (fun k hk hkx => by simpa using hcap k hk (by simpa using hkx))
    (fun k hk hkx => by simpa using hwait k hk (by simpa using hkx))
    (fun k hk hkx hx => by
      have := hfound k hk (by simpa using hkx) (by simpa using hx)
      simpa using this)
  rw [downloadPlaylist_unfolded env y z entries hval hy hz hinfo hne]
  cases hab : (playlistLoop env (mp3Paths env.disk) entries.length 0 (videoUrlsOf entries)
      env.disk [] 0 []).abort with
  | some e =>
    rw [hab] at H
    exact absurd H.1 (by simp)
  | none =>
    dsimp only
    refine ⟨?_, ⟨_, rfl, rfl, ?_⟩, ?_⟩
    · rw [H.2.1]
      have hadd := countIdx_not_add ex (videoUrlsOf entries).length 0
      omega
    · intro k hk hkx
      have hmem := H.2.2.2.2 k hk (by simpa using hkx)
      rw [Nat.zero_add] at hmem
      exact hmem
    · intro k hk hkx
      have hmem := H.2.2.2.1 k hk (by simpa using hkx)
      rw [Nat.zero_add] at hmem
      exact List.mem_append_left _ hmem

/-- C3 witness: three items, the first one's artifact `out/Song A.mp3`
(777 bytes) already on disk: two spawns, skip emission for item 1,
`total_videos = 3`, and `downloaded_videos` holds the synthesized entry
`⟨"out/Song A.mp3", some "Song A", none, some 777⟩`. -/
theorem c3_playlist_skip_idempotence_witness :
    (downloadPlaylistWithProgress c3WitnessEnv).spawns = 2 ∧
    (∃ r, (downloadPlaylistWithProgress c3WitnessEnv).result = .ok r ∧
      r.total_videos = 3 ∧
      (⟨"out/Song A.mp3", some "Song A", none, some 777⟩ : DownloadResult) ∈
        r.downloaded_videos) ∧
    skipEmission c3WitnessEnv 3 0 ∈ (downloadPlaylistWithProgress c3WitnessEnv).emissions := by
  have hA : ∀ k, k < (videoUrlsOf witnessEntries).length → (fun i => i == 0) k = false →
      pathExists c3WitnessEnv.disk
        (itemExpectedPath c3WitnessEnv k ((videoUrlsOf witnessEntries).getD k "")) = false := by
    decide
  have hB : ∀ k, k < (videoUrlsOf witnessEntries).length →
      pathExists [(⟨"out/new.mp3", 4242⟩ : FileMeta)]
        (itemExpectedPath c3WitnessEnv k ((videoUrlsOf witnessEntries).getD k "")) = false := by
    decide
  obtain ⟨hs, ⟨r, hr, ht, hdl⟩, hsk⟩ := c3_playlist_skip_idempotence c3WitnessEnv
    "yt-dlp" "ffmpeg" witnessEntries (fun i => i == 0)
    (by decide) rfl rfl rfl (by decide)
    (by decide)
    (fun k hk hkx => ⟨hA k hk hkx, fun j => hB k hk⟩)
    (fun k hk hkx => rfl) (fun k hk hkx => rfl) (fun k hk hkx => rfl)
    (fun k hk hkx hx => ⟨⟨"out/new.mp3", 4242⟩, List.mem_singleton.mpr rfl, by decide, by decide⟩)
  have heq : (⟨itemExpectedPath c3WitnessEnv 0 ((videoUrlsOf witnessEntries).getD 0 ""),
      itemCurrentTitle c3WitnessEnv 0, none,
      diskSize c3WitnessEnv.disk
        (itemExpectedPath c3WitnessEnv 0 ((videoUrlsOf witnessEntries).getD 0 ""))⟩ :
      DownloadResult) = ⟨"out/Song A.mp3", some "Song A", none, some 777⟩ := by
    decide
  refine ⟨by rw [hs]; decide, ⟨r, hr, by rw [ht]; decide, ?_⟩,
    hsk 0 (by decide) (by decide)⟩
  rw [← heq]
  exact hdl 0 (by decide) (by decide)

end YtMp3
